import Mathlib

/-!
Verification of the pdf-harvester repository.

The repository contains two near-duplicate pipeline implementations:

* `src/pdf_harvester.py` — a standalone script (module-level functions
  `slugify`, `is_pdf_url`, `safe_filename`, `click_by_text`, `handle_cookies`,
  `close_modals`, `detect_gate`, `resolve_gate`, `try_download_event`,
  `collect_candidate_links`, `harvest_one`), embedded below in namespace `PH`.
* `src/harvester.py` — a class `PdfHarvester` (`process_url`,
  `_is_pdf_response`, `_handle_cookies`, `_handle_popups`,
  `_check_compliance_gate`, `_try_download_buttons`, `_try_fallback_links`,
  `_save_download`), together with `src/config.py` and
  `src/utils.py` (`sanitize_filename`), embedded below in namespace `HV`.

Browser interaction (DOM queries, clicks, navigation, download events) is
modelled by an oracle structure over an abstract page-state type `S`.  A
click attempt that raises inside the source is swallowed by the source's own
`except` handler and is observationally identical to "no match", so both are
modelled as `none`; totality of every Lean definition corresponds to the
source functions never letting an interaction exception escape.  Strings are
modelled with Lean `String`/`List Char`; `Char.toLower` models Python
`str.lower` on the ASCII texts involved.
-/

namespace PH

/-- Lowercase a string character by character (Python `str.lower`). -/
def lowerStr (s : String) : String := ⟨s.data.map Char.toLower⟩

/-- Boolean test for a contiguous occurrence of `sub` inside `l`. -/
def hasInfix (sub : List Char) : List Char → Bool
  | [] => sub.isEmpty
  | c :: t => sub.isPrefixOf (c :: t) || hasInfix sub t

/-- Python substring test `sub in t`. -/
def strContains (t sub : String) : Bool := hasInfix sub.data t.data

/-- Source `contains_any` (pdf_harvester.py line 127): lowercase the text and
test whether any hint occurs in it, hints lowercased too. -/
def contains_any (text : String) (hints : List String) : Bool :=
  hints.any (fun h => strContains (lowerStr text) (lowerStr h))

/-- Character class `[a-z0-9]` of the first regex in `slugify`. -/
def isAlnumLower (c : Char) : Bool :=
  (decide (97 ≤ c.toNat) && decide (c.toNat ≤ 122)) ||
  (decide (48 ≤ c.toNat) && decide (c.toNat ≤ 57))

/-- Python `str.isspace` restricted to the usual ASCII whitespace, as used by
`str.strip()`. -/
def isWsChar (c : Char) : Bool :=
  c = ' ' || c = '\t' || c = '\n' || c = '\r' || c = Char.ofNat 11 || c = Char.ofNat 12

/-- Python `str.strip()` on a character list. -/
def trimWs (l : List Char) : List Char :=
  ((l.dropWhile isWsChar).reverse.dropWhile isWsChar).reverse

/-- Python `str.strip("_")` on a character list. -/
def trimUnd (l : List Char) : List Char :=
  ((l.dropWhile (fun c => c = '_')).reverse.dropWhile (fun c => c = '_')).reverse

/-- Collapse consecutive underscores to one (the `re.sub(r"_+", "_", ...)` in
`slugify`).  Replacing every non-`[a-z0-9]` character by `_` and then
collapsing runs of `_` yields exactly the result of the source's
`re.sub(r"[^a-z0-9]+", "_", ...)` followed by its `re.sub(r"_+", "_", ...)`. -/
def collapseUnd : List Char → List Char
  | [] => []
  | [c] => [c]
  | c :: d :: rest =>
    if c = '_' && d = '_' then collapseUnd (d :: rest)
    else c :: collapseUnd (d :: rest)

/-- Source `slugify` (pdf_harvester.py line 102): lowercase, strip
whitespace, replace runs of non-alphanumerics by `_`, collapse `_` runs,
strip leading/trailing `_`. -/
def slugify (s : String) : String :=
  ⟨trimUnd (collapseUnd ((trimWs (s.data.map Char.toLower)).map
      (fun c => if isAlnumLower c then c else '_')))⟩

/-- Characters kept up to (and excluding) the second underscore.  For any
string this equals Python `"_".join(s.split("_")[:2])`, which is how
`safe_filename` truncates the slug to its first two tokens. -/
def takeTwoTokens : Nat → List Char → List Char
  | _, [] => []
  | k, c :: cs =>
    if c = '_' then
      (if k = 0 then c :: takeTwoTokens 1 cs else [])
    else c :: takeTwoTokens k cs

/-- Source `safe_filename` (pdf_harvester.py line 114): slugify the
institution, keep the first two `_`-separated tokens, append `_2026.pdf`.
Note the source appends no current date; `now_date` exists in the module but
is not used here. -/
def safe_filename (institution : String) : String :=
  ⟨takeTwoTokens 0 (slugify institution).data⟩ ++ "_2026.pdf"

/-- Source `is_pdf_url` (pdf_harvester.py line 107): take the part of the URL
before the first `?` (Python `url.split("?")[0]`), lowercase it, and test the
`.pdf` suffix. -/
def is_pdf_url (url : String) : Bool :=
  ".pdf".data.isSuffixOf ((url.data.takeWhile (fun c => c ≠ '?')).map Char.toLower)

/-- First-seen-order deduplication, the behaviour of Python
`list(dict.fromkeys(...))`: `seen` accumulates the keys already emitted. -/
def dedupGo (seen : List String) : List String → List String
  | [] => []
  | x :: xs => if x ∈ seen then dedupGo seen xs else x :: dedupGo (x :: seen) xs

/-- Deduplicate preserving first occurrences (`list(dict.fromkeys(l))`). -/
def dedupFirst (l : List String) : List String := dedupGo [] l

/-- Keyword list local to `collect_candidate_links` (pdf_harvester.py
line 295). -/
def fallbackKeywords : List String :=
  ["pdf", "download", "outlook", "report", "publication"]

/-- Keyword containment test of the second pass of `collect_candidate_links`:
`any(k in h.lower() for k in keywords)`. -/
def kwMatch (h : String) : Bool :=
  fallbackKeywords.any (fun k => strContains (lowerStr h) k)

/-- Source `collect_candidate_links` (pdf_harvester.py line 283), as a
function of the anchor href list the page yields.  First pass keeps hrefs
passing `is_pdf_url`; if any, dedup first-seen and cap at
`MAX_CANDIDATE_LINKS = 10`; otherwise keep hrefs whose lowercased URL
contains a fallback keyword, dedup, cap at 10. -/
def collect_candidate_links (hrefs : List String) : List String :=
  let pdfs := hrefs.filter is_pdf_url
  if pdfs.isEmpty then (dedupFirst (hrefs.filter kwMatch)).take 10
  else (dedupFirst pdfs).take 10

end PH

namespace HV

/-- Source `utils.sanitize_filename` (utils.py line 21): delete the
characters matched by `[\\/*?:"<>|]`, replace spaces by underscores, append
`_2026_Outlook_<date>.pdf` where `<date>` is the current date string.  The
date is passed explicitly here since it is read from the clock. -/
def sanitize_filename (institution date : String) : String :=
  ⟨(institution.data.filter
      (fun c => !(c = '\\' || c = '/' || c = '*' || c = '?' || c = ':' ||
        c = '"' || c = '<' || c = '>' || c = '|'))).map
      (fun c => if c = ' ' then '_' else c)⟩ ++
    "_2026_Outlook_" ++ date ++ ".pdf"

/-- Source `config.FALLBACK_LINK_KEYWORDS` (config.py line 64). -/
def FALLBACK_LINK_KEYWORDS : List String := ["pdf", "download", "report", "outlook"]

/-- Python `href.lower().endswith(".pdf")` as used in `_try_fallback_links`
and `_is_pdf_response` (no query stripping in this variant). -/
def endsWithPdf (href : String) : Bool :=
  ".pdf".data.isSuffixOf (PH.lowerStr href).data

/-- Score of one anchor in `_try_fallback_links` (harvester.py lines
230-237): +10 for a lowercased `.pdf` suffix, +5 for substring `pdf` in the
lowercased href, +3 when the link text is non-empty and contains a fallback
keyword. -/
def anchorScore (href text : String) : Nat :=
  (if endsWithPdf href then 10 else 0) +
  (if PH.strContains (PH.lowerStr href) "pdf" then 5 else 0) +
  (if text ≠ "" && FALLBACK_LINK_KEYWORDS.any (fun k => PH.strContains (PH.lowerStr text) k)
    then 3 else 0)

/-- Stable descending insertion by score: `x` goes in front of the first
element with a strictly smaller score, hence after every earlier element of
equal score. -/
def insertDesc (x : Nat × String) : List (Nat × String) → List (Nat × String)
  | [] => [x]
  | y :: ys => if y.1 < x.1 then x :: y :: ys else y :: insertDesc x ys

/-- Stable descending sort by score, the behaviour of Python
`candidates.sort(key=lambda x: x[0], reverse=True)` (Python sorts are
stable and `reverse=True` keeps equal elements in original order). -/
def sortDesc (l : List (Nat × String)) : List (Nat × String) :=
  l.foldl (fun acc x => insertDesc x acc) []

/-- Candidate construction of `_try_fallback_links` (harvester.py lines
223-241): anchors with a missing or empty href are skipped (`if not href:
continue`), the rest are scored, and only positive scores are kept. -/
def scoreCandidates (anchors : List (String × String)) : List (Nat × String) :=
  anchors.filterMap (fun a =>
    if a.1 = "" then none
    else if 0 < anchorScore a.1 a.2 then some (anchorScore a.1 a.2, a.1) else none)

/-- Ranked candidate list of `_try_fallback_links` (harvester.py lines
243-245): sort by score descending (stable) and keep the top 10. -/
def topCandidates (anchors : List (String × String)) : List (Nat × String) :=
  (sortDesc (scoreCandidates anchors)).take 10

end HV

/-- Events marking the orchestrator steps, used for the temporal claims:
`navigate` for each page-navigation attempt, `obstaclesCleared` after a
cookie-handling/modal-closing pass, `gateCheck` for each gate-resolver
invocation, `dlAttempt` for each invocation of the download trigger, and
`screenshot` for each screenshot capture. -/
inductive Ev where
  | navigate (url : String)
  | obstaclesCleared
  | gateCheck
  | dlAttempt
  | screenshot (tag : String)
deriving DecidableEq

namespace PH

/-- Dataclass `HarvestResult` (pdf_harvester.py line 136); `__post_init__`
turns the `None` default for `actions` into `[]`. -/
structure HarvestResult where
  institution : String
  start_url : String
  final_url : Option String := none
  status : String := "error"
  file_path : Option String := none
  notes : Option String := none
  actions : List String := []
deriving DecidableEq

/-- Oracle for the browser-automation engine used by pdf_harvester.py, over
an abstract page-state type `S`.  A `none` from a click field covers both
"no matching element" and "the interaction raised": the source swallows the
exception either way, and a failed attempt is modelled as leaving the state
unchanged.  `newPage` is `context.new_page()` followed by `page.goto`
(`none` when `goto` raises); `sniffed` reads a page's `last_pdf_url`
sniffer cell at the given state; `download` tells whether a download event
fires in time after the preceding click and `save_as` succeeds (`none`
covers both the timeout and a failing save); `hrefs` is
`eval_on_selector_all("a[href]", ...)`, whose internal exception handler
returning `[]` is covered by the oracle returning `[]`.  `failNote` stands
for `repr(e)` of a navigation exception and `failUrl` for what `page.url`
yields inside the top-level error handler (`none` when that read raises). -/
structure Browser (S : Type) where
  clickButton : S → String → Option S
  clickLink : S → String → Option S
  clickSelector : S → String → Option S
  bodyText : S → String
  pageUrl : S → String
  newPage : String → Option S
  scroll : S → S
  sniffed : S → String
  download : S → Option S
  hrefs : S → List String
  failNote : String
  failUrl : Option String

/-- Source `COOKIE_TEXTS` (pdf_harvester.py line 64). -/
def COOKIE_TEXTS : List String :=
  ["Accept all", "Accept All", "Accept", "I agree", "I Agree", "Agree",
   "OK", "Okay", "Allow all", "Got it", "Accept cookies", "Accept Cookies"]

/-- Source `CLOSE_TEXTS` (pdf_harvester.py line 69). -/
def CLOSE_TEXTS : List String := ["Close", "Dismiss", "No thanks", "Not now"]

/-- Source `DOWNLOAD_HINTS` (pdf_harvester.py line 70), in priority order. -/
def DOWNLOAD_HINTS : List String :=
  ["download full pdf", "download pdf", "download", "pdf",
   "full report", "report pdf", "outlook", "view pdf", "download report"]

/-- Source `GATE_HINTS` (pdf_harvester.py line 75). -/
def GATE_HINTS : List String :=
  ["financial intermediary", "professional investor", "institutional investor",
   "retail investor", "accredited", "qualified investor", "i certify",
   "jurisdiction", "disclaimer", "terms and conditions", "important information"]

/-- Source `PROFILE_MAP` (pdf_harvester.py line 81); `.get` with default
`[]` for any other profile. -/
def PROFILE_MAP (profile : String) : List String :=
  if profile = "retail" then ["Retail", "Individual", "Private investor", "Private Investor"]
  else if profile = "professional" then
    ["Professional", "Qualified", "Professional investor", "Professional Investor"]
  else if profile = "institutional" then
    ["Institutional", "Financial intermediary", "Intermediary", "Institutional Investor"]
  else []

/-- Selector list of `close_modals` (pdf_harvester.py line 196); the third
entry reproduces the source file's literal characters. -/
def closeSelectors : List String :=
  ["button[aria-label=\x27Close\x27]", "button[aria-label=\x27close\x27]",
   "button:has-text(\x27Ã—\x27)"]

/-- Continuation phrases clicked by `resolve_gate` (pdf_harvester.py
line 233). -/
def continueTexts : List String :=
  ["Continue", "Enter", "Proceed", "Confirm", "I agree", "Agree"]

/-- Source `click_by_text` (pdf_harvester.py line 155): for each phrase try
the button role then the link role; the first successful click returns
`True`; exhaustion returns `False`.  A raised click is swallowed and falls
through exactly like a missing element. -/
def click_by_text {S : Type} (b : Browser S) (s : S) : List String → Option S
  | [] => none
  | t :: rest =>
    match b.clickButton s t with
    | some s1 => some s1
    | none =>
      match b.clickLink s t with
      | some s1 => some s1
      | none => click_by_text b s rest

/-- Source `handle_cookies` (pdf_harvester.py line 176). -/
def handle_cookies {S : Type} (b : Browser S) (s : S) (r : HarvestResult) :
    S × HarvestResult :=
  match click_by_text b s COOKIE_TEXTS with
  | some s1 => (s1, { r with actions := r.actions ++ ["accepted_cookies"] })
  | none => (s, r)

/-- Source `handle_linkedin_interstitial` (pdf_harvester.py line 180). -/
def handle_linkedin_interstitial {S : Type} (b : Browser S) (s : S) (r : HarvestResult) :
    S × HarvestResult :=
  if strContains (b.pageUrl s) "linkedin.com" &&
      strContains (lowerStr (b.bodyText s)) "leaving" then
    match click_by_text b s ["Continue", "Go to link", "Proceed"] with
    | some s1 => (s1, { r with actions := r.actions ++ ["handled_linkedin_redirect"] })
    | none => (s, r)
  else (s, r)

/-- Selector pass of `close_modals` (pdf_harvester.py lines 196-204): click
the first selector that works, then stop (`break`). -/
def closeSelLoop {S : Type} (b : Browser S) (s : S) : List String → Option S
  | [] => none
  | sel :: rest =>
    match b.clickSelector s sel with
    | some s1 => some s1
    | none => closeSelLoop b s rest

/-- Source `close_modals` (pdf_harvester.py line 190): a phrase pass and a
selector pass, each recorded independently. -/
def close_modals {S : Type} (b : Browser S) (s : S) (r : HarvestResult) :
    S × HarvestResult :=
  let p :=
    match click_by_text b s CLOSE_TEXTS with
    | some s1 => (s1, { r with actions := r.actions ++ ["closed_modal"] })
    | none => (s, r)
  match closeSelLoop b p.1 closeSelectors with
  | some s2 => (s2, { p.2 with actions := p.2.actions ++ ["closed_modal_x"] })
  | none => p

/-- Source `detect_gate` (pdf_harvester.py line 206). -/
def detect_gate {S : Type} (b : Browser S) (s : S) : Bool :=
  contains_any (b.bodyText s) GATE_HINTS

/-- Source `resolve_gate` (pdf_harvester.py line 210), with the module
configuration constant `INVESTOR_PROFILE` passed as `profile`.  Returns
`((handled, note), page-state, result)`.  Note the return value of the
continuation click on line 233 is discarded: `gate_continued` is appended
whether or not that click found anything. -/
def resolve_gate {S : Type} (b : Browser S) (profile : String) (s : S)
    (r : HarvestResult) : (Bool × String) × S × HarvestResult :=
  if !(detect_gate b s) then ((true, "no_gate"), s, r)
  else
    let r1 := { r with actions := r.actions ++ ["gate_detected"] }
    if profile = "unknown" then
      ((false, "Gate detected; profile=unknown => manual required."), s, r1)
    else if PROFILE_MAP profile = [] then
      ((false, "Gate detected; no mapping for profile=" ++ profile ++ "."), s, r1)
    else
      match click_by_text b s (PROFILE_MAP profile) with
      | some s1 =>
        let r2 := { r1 with actions := r1.actions ++ ["gate_selected_" ++ profile] }
        let p1 := handle_cookies b s1 r2
        let p2 := close_modals b p1.1 p1.2
        let s4 :=
          match click_by_text b p2.1 continueTexts with
          | some s5 => s5
          | none => p2.1
        ((true, "Gate handled using profile=" ++ profile ++ "."), s4,
          { p2.2 with actions := p2.2.actions ++ ["gate_continued"] })
      | none =>
        ((false, "Gate detected; could not find clickable option for profile=" ++
            profile ++ "."), s, r1)

/-- Phrase loop of `try_download_event` (pdf_harvester.py lines 267-279): a
phrase whose click does not happen, or whose click is not followed by a
download event in time (or whose `save_as` raises), falls through to the
next phrase; the first captured-and-saved download returns its path. -/
def tryDownloadGo {S : Type} (b : Browser S) (inst : String) :
    S → HarvestResult → List String → Option String × S × HarvestResult
  | s, r, [] => (none, s, r)
  | s, r, hint :: rest =>
    match click_by_text b s [hint] with
    | none => tryDownloadGo b inst s r rest
    | some s1 =>
      match b.download s1 with
      | none => tryDownloadGo b inst s1 r rest
      | some s2 =>
        (some ("downloads/" ++ safe_filename inst), s2,
          { r with actions := r.actions ++ ["downloaded_via_click:" ++ hint] })

/-- Source `try_download_event` (pdf_harvester.py line 263). -/
def try_download_event {S : Type} (b : Browser S) (inst : String) (s : S)
    (r : HarvestResult) : Option String × S × HarvestResult :=
  tryDownloadGo b inst s r DOWNLOAD_HINTS

/-- Sniffed-URL follow-up of `harvest_one` (pdf_harvester.py lines 354-370):
open the sniffed URL in a fresh page and retry the download trigger there;
any exception is swallowed and the pipeline continues. -/
def sniffFollowup {S : Type} (b : Browser S) (inst purl : String)
    (r : HarvestResult) : Option HarvestResult × HarvestResult × List Ev :=
  match b.newPage purl with
  | none => (none, r, [Ev.navigate purl])
  | some t0 =>
    let t := try_download_event b inst t0 r
    match t.1 with
    | some o =>
      (some { t.2.2 with status := "downloaded", file_path := some o, final_url := some (b.pageUrl t.2.1) },
        t.2.2, [Ev.navigate purl, Ev.dlAttempt])
    | none => (none, t.2.2, [Ev.navigate purl, Ev.dlAttempt])

/-- Body of the candidate-link loop of `harvest_one` for one candidate
(pdf_harvester.py lines 375-413): open a fresh page (a navigation error
skips the candidate), re-run cookie and modal handling and the gate
resolver (a gate failure is skip-and-continue), try the download trigger,
then one level deeper via that page's sniffed URL.  Returns the early
result (for a successful download), the threaded result, and the events. -/
def candStep {S : Type} (b : Browser S) (profile inst cand : String)
    (r : HarvestResult) : Option HarvestResult × HarvestResult × List Ev :=
  match b.newPage cand with
  | none => (none, r, [Ev.navigate cand])
  | some t0 =>
    let p1 := handle_cookies b t0 r
    let p2 := close_modals b p1.1 p1.2
    let g := resolve_gate b profile p2.1 p2.2
    if g.1.1 then
      let t := try_download_event b inst g.2.1 g.2.2
      match t.1 with
      | some o =>
        (some { t.2.2 with status := "downloaded", file_path := some o, final_url := some (b.pageUrl t.2.1) },
          t.2.2, [Ev.navigate cand, Ev.obstaclesCleared, Ev.gateCheck, Ev.dlAttempt])
      | none =>
        if b.sniffed t.2.1 = "" then
          (none, t.2.2, [Ev.navigate cand, Ev.obstaclesCleared, Ev.gateCheck, Ev.dlAttempt])
        else
          match b.newPage (b.sniffed t.2.1) with
          | none =>
            (none, t.2.2, [Ev.navigate cand, Ev.obstaclesCleared, Ev.gateCheck,
              Ev.dlAttempt, Ev.navigate (b.sniffed t.2.1)])
          | some u0 =>
            let t3 := try_download_event b inst u0 t.2.2
            match t3.1 with
            | some o =>
              (some { t3.2.2 with status := "downloaded", file_path := some o, final_url := some (b.pageUrl t3.2.1) },
                t3.2.2, [Ev.navigate cand, Ev.obstaclesCleared, Ev.gateCheck,
                  Ev.dlAttempt, Ev.navigate (b.sniffed t.2.1), Ev.dlAttempt])
            | none =>
              (none, t3.2.2, [Ev.navigate cand, Ev.obstaclesCleared, Ev.gateCheck,
                Ev.dlAttempt, Ev.navigate (b.sniffed t.2.1), Ev.dlAttempt])
    else (none, g.2.2, [Ev.navigate cand, Ev.obstaclesCleared, Ev.gateCheck])

/-- Candidate-link loop of `harvest_one` (pdf_harvester.py lines 374-413):
iterate `candStep` over the candidates; the first successful download
returns, otherwise the mutated result is threaded on. -/
def candLoop {S : Type} (b : Browser S) (profile inst : String) :
    List String → HarvestResult → Option HarvestResult × HarvestResult × List Ev
  | [], r => (none, r, [])
  | cand :: rest, r =>
    let st := candStep b profile inst cand r
    match st.1 with
    | some rf => (some rf, st.2.1, st.2.2)
    | none =>
      let c := candLoop b profile inst rest st.2.1
      (c.1, c.2.1, st.2.2 ++ c.2.2)

/-- Conditional first download attempt of `harvest_one` (pdf_harvester.py
lines 338-343): only when the current URL is a PDF or the sniffer has
already seen one. -/
def mainFirst {S : Type} (b : Browser S) (inst : String) (s5 : S)
    (r5 : HarvestResult) : (Option String × S × HarvestResult) × List Ev :=
  if is_pdf_url (b.pageUrl s5) || !(b.sniffed s5 = "") then
    (try_download_event b inst s5 r5, [Ev.dlAttempt])
  else (((none : Option String), s5, r5), ([] : List Ev))

/-- Post-gate pipeline of `harvest_one` (pdf_harvester.py lines 336-420),
entered with the gate handled and `final_url` already set to the page URL:
conditional first download attempt, unconditional second attempt, sniffed
URL follow-up, candidate crawl, and finally `not_found`. -/
def harvestMain {S : Type} (b : Browser S) (profile inst : String) (s5 : S)
    (r5 : HarvestResult) : HarvestResult × List Ev :=
  let first := mainFirst b inst s5 r5
  match first.1.1 with
  | some o => ({ first.1.2.2 with status := "downloaded", file_path := some o }, first.2)
  | none =>
    let t2 := try_download_event b inst first.1.2.1 first.1.2.2
    match t2.1 with
    | some o =>
      ({ t2.2.2 with status := "downloaded", file_path := some o, final_url := some (b.pageUrl t2.2.1) },
        first.2 ++ [Ev.dlAttempt])
    | none =>
      let sf :=
        if b.sniffed t2.2.1 = "" then ((none : Option HarvestResult), t2.2.2, ([] : List Ev))
        else sniffFollowup b inst (b.sniffed t2.2.1) t2.2.2
      match sf.1 with
      | some rf => (rf, first.2 ++ [Ev.dlAttempt] ++ sf.2.2)
      | none =>
        let cl := candLoop b profile inst (collect_candidate_links (b.hrefs t2.2.1)) sf.2.1
        match cl.1 with
        | some rf => (rf, first.2 ++ [Ev.dlAttempt] ++ sf.2.2 ++ cl.2.2)
        | none =>
          ({ cl.2.1 with status := "not_found", notes := some "No downloadable PDF detected via heuristics. Manual check needed.", final_url := some (b.pageUrl t2.2.1) },
            first.2 ++ [Ev.dlAttempt] ++ sf.2.2 ++ cl.2.2 ++
              [Ev.screenshot (slugify inst ++ "_not_found")])

/-- Obstacle-clearing and gate-resolution stage of `harvest_one`
(pdf_harvester.py lines 314-328): the interstitial handler, the scroll
sequence (a pure state transform), cookie handling, modal closing, then the
gate resolver. -/
def harvestPrep {S : Type} (b : Browser S) (profile : String) (s0 : S)
    (r0 : HarvestResult) : (Bool × String) × S × HarvestResult :=
  let p1 := handle_linkedin_interstitial b s0 r0
  let p2 := handle_cookies b (b.scroll p1.1) p1.2
  let p3 := close_modals b p2.1 p2.2
  resolve_gate b profile p3.1 p3.2

/-- Source `harvest_one` (pdf_harvester.py line 304): navigation, the
obstacle/gate stage (manual-required is terminal with a screenshot), then
the post-gate pipeline.  A navigation failure is the `error` terminal. -/
def harvest_one {S : Type} (b : Browser S) (profile inst url : String) :
    HarvestResult × List Ev :=
  let r0 : HarvestResult := { institution := inst, start_url := url }
  match b.newPage url with
  | none =>
    let r1 := { r0 with status := "error", notes := some b.failNote }
    match b.failUrl with
    | some u =>
      ({ r1 with final_url := some u },
        [Ev.navigate url, Ev.screenshot (slugify inst ++ "_error")])
    | none => (r1, [Ev.navigate url])
  | some s0 =>
    let g := harvestPrep b profile s0 r0
    if g.1.1 then
      let m := harvestMain b profile inst g.2.1
        { g.2.2 with final_url := some (b.pageUrl g.2.1) }
      (m.1, Ev.navigate url :: Ev.obstaclesCleared :: Ev.gateCheck :: m.2)
    else
      ({ g.2.2 with final_url := some (b.pageUrl g.2.1), status := "manual_required", notes := some g.1.2 },
        [Ev.navigate url, Ev.obstaclesCleared, Ev.gateCheck,
         Ev.screenshot (slugify inst ++ "_manual_required")])

end PH

namespace HV

/-- Result dictionary of `process_url` (harvester.py lines 44-50). -/
structure ResultH where
  start_url : String
  final_url : String := ""
  status : String := "error"
  notes : String := ""
  file_path : String := ""
deriving DecidableEq

/-- Return value of `process_url`.  On a direct-PDF response the source does
`return self._handle_direct_pdf_download(...)`, and that stub ends in
`return False`, so the caller receives a bare boolean instead of the result
dictionary; `boolEscape` records that anomalous exit. -/
inductive ProcRet where
  | res (r : ResultH)
  | boolEscape (v : Bool)
deriving DecidableEq

/-- Oracle for the browser engine used by harvester.py over an abstract
page-state type `S`.  `goto` yields the new state and the (possibly absent)
response as a content-type/URL pair, `none` when navigation raises.
`visClick` combines `page.is_visible(sel)` and `page.click(sel)`: `none`
when the selector is not visible or the click raises (both swallowed by the
source).  `gatePass` is the profile-option click of
`_check_compliance_gate` including its `wait_for_load_state`; `visKw` and
`dlKw` are the visible-element scan and the download capture of
`_try_download_buttons`; `navDl` tells whether navigating to an href fires
a download event in time (`_try_fallback_links` direct-PDF branch). -/
structure BrowserH (S : Type) where
  goto : S → String → Option (S × Option (String × String))
  pageUrl : S → String
  pageContent : S → String
  visClick : S → String → Option S
  gatePass : S → String → Option S
  visKw : S → String → Bool
  dlKw : S → String → Option S
  anchors : S → List (String × String)
  navDl : S → String → Bool
  failNote : String

/-- Source `config.COOKIE_BUTTON_TEXTS` (config.py line 22). -/
def COOKIE_BUTTON_TEXTS : List String :=
  ["Accept all", "Accept", "I agree", "Agree", "OK", "Allow all", "Got it",
   "Accept Cookies", "Allow Cookies"]

/-- Source `config.POPUP_CLOSE_TEXTS` (config.py line 28). -/
def POPUP_CLOSE_TEXTS : List String := ["X", "Close", "Dismiss", "No thanks", "Later"]

/-- Source `config.POPUP_CLOSE_SELECTORS` (config.py line 32). -/
def POPUP_CLOSE_SELECTORS : List String :=
  ["button[aria-label=\x27Close\x27]", "button[class*=\x27close\x27]",
   ".close-icon", ".modal-close"]

/-- Source `config.PDF_LINK_KEYWORDS_PRIORITY` (config.py line 41). -/
def PDF_LINK_KEYWORDS_PRIORITY : List String :=
  ["download full pdf", "download pdf", "view pdf", "full report", "download"]

/-- Source `config.COMPLIANCE_GATE_KEYWORDS` (config.py line 50). -/
def COMPLIANCE_GATE_KEYWORDS : List String :=
  ["financial intermediary", "professional investor", "institutional", "retail",
   "accredited", "qualified", "jurisdiction", "i certify", "investor type",
   "client type"]

/-- Case-insensitive text selector `f"text=/{text}/i"` built by the
harvester.py handlers. -/
def textSel (t : String) : String := "text=/" ++ t ++ "/i"

/-- Source `_is_pdf_response` (harvester.py line 114): `False` for a missing
response, otherwise content-type contains `application/pdf` or the full
lowercased response URL ends in `.pdf` (no query stripping). -/
def is_pdf_response (resp : Option (String × String)) : Bool :=
  match resp with
  | none => false
  | some p => PH.strContains (PH.lowerStr p.1) "application/pdf" || endsWithPdf p.2

/-- Source `_handle_cookies` (harvester.py line 121): the first visible
cookie text is clicked and the function returns; errors fall through to the
next text. -/
def cookieLoop {S : Type} (b : BrowserH S) (s : S) : List String → S
  | [] => s
  | t :: rest =>
    match b.visClick s (textSel t) with
    | some s1 => s1
    | none => cookieLoop b s rest

/-- Source `_handle_cookies` over `COOKIE_BUTTON_TEXTS`. -/
def handle_cookies {S : Type} (b : BrowserH S) (s : S) : S :=
  cookieLoop b s COOKIE_BUTTON_TEXTS

/-- Text pass of `_handle_popups` (harvester.py lines 139-147): unlike the
cookie handler this pass visits every text. -/
def popupTextPass {S : Type} (b : BrowserH S) : S → List String → S
  | s, [] => s
  | s, t :: rest =>
    popupTextPass b
      (match b.visClick s (textSel t) with
       | some s1 => s1
       | none => s) rest

/-- Selector pass of `_handle_popups` (harvester.py lines 150-157). -/
def popupSelPass {S : Type} (b : BrowserH S) : S → List String → S
  | s, [] => s
  | s, sel :: rest =>
    popupSelPass b
      (match b.visClick s sel with
       | some s1 => s1
       | none => s) rest

/-- Source `_handle_popups` (harvester.py line 136). -/
def handle_popups {S : Type} (b : BrowserH S) (s : S) : S :=
  popupSelPass b (popupTextPass b s POPUP_CLOSE_TEXTS) POPUP_CLOSE_SELECTORS

/-- Source `_check_compliance_gate` (harvester.py line 159), with
`config.INVESTOR_PROFILE` passed as `profile`.  Returns the status string
and the page state.  When the profile click (or its wait) raises, the
warning branch falls through to `manual_required`. -/
def check_compliance_gate {S : Type} (b : BrowserH S) (profile : String) (s : S) :
    String × S :=
  let content := PH.lowerStr (b.pageContent s)
  if !(COMPLIANCE_GATE_KEYWORDS.any (fun k => PH.strContains content k)) then ("none", s)
  else if profile = "unknown" then ("manual_required", s)
  else
    match b.gatePass s profile with
    | some s1 => ("gate_passed", s1)
    | none => ("manual_required", s)

/-- Source `_save_download` (harvester.py line 303).  harvester.py never
imports `os`, so `os.path.join` on line 307 raises `NameError` before any
field of the result is written; the function's own `except Exception`
swallows it and returns `False`.  Observationally `_save_download` always
returns `False` with the result unchanged, never reaching the lines that
set `status = "downloaded"` and `file_path`. -/
def save_download (_institution : String) (r : ResultH) : Bool × ResultH := (false, r)

/-- Source `_try_download_buttons` (harvester.py line 191): for each keyword
in priority order, click the first visible matching element while expecting
a download; a timeout or error moves to the next keyword, a captured
download returns `self._save_download(...)` directly (which is always
`False`, see `save_download`). -/
def try_download_buttons {S : Type} (b : BrowserH S) (inst : String) :
    S → ResultH → List String → Bool × S × ResultH
  | s, r, [] => (false, s, r)
  | s, r, kw :: rest =>
    if b.visKw s kw then
      match b.dlKw s kw with
      | some s1 =>
        let sv := save_download inst r
        (sv.1, s1, sv.2)
      | none => try_download_buttons b inst s r rest
    else try_download_buttons b inst s r rest

/-- Candidate loop of `_try_fallback_links` (harvester.py lines 247-284):
for each scored candidate, a direct-PDF href first gets a navigation with a
download listener (`return self._save_download(...)` on capture); then the
page navigates to the href (failure skips to the next candidate) and
re-runs `_try_download_buttons` there. -/
def fallbackLoop {S : Type} (b : BrowserH S) (inst : String) :
    S → ResultH → List (Nat × String) → Bool × S × ResultH × List Ev
  | s, r, [] => (false, s, r, [])
  | s, r, c :: rest =>
    if endsWithPdf c.2 && b.navDl s c.2 then
      let sv := save_download inst r
      (sv.1, s, sv.2, [Ev.dlAttempt])
    else
      let dltr : List Ev := if endsWithPdf c.2 then [Ev.dlAttempt] else []
      match b.goto s c.2 with
      | none =>
        let k := fallbackLoop b inst s r rest
        (k.1, k.2.1, k.2.2.1, dltr ++ Ev.navigate c.2 :: k.2.2.2)
      | some p =>
        let t := try_download_buttons b inst p.1 r PDF_LINK_KEYWORDS_PRIORITY
        if t.1 then (t.1, t.2.1, t.2.2, dltr ++ [Ev.navigate c.2, Ev.dlAttempt])
        else
          let k := fallbackLoop b inst t.2.1 t.2.2 rest
          (k.1, k.2.1, k.2.2.1, dltr ++ Ev.navigate c.2 :: Ev.dlAttempt :: k.2.2.2)

/-- Source `_try_fallback_links` (harvester.py line 218): score and rank the
anchors, then walk the top candidates. -/
def try_fallback_links {S : Type} (b : BrowserH S) (inst : String) (s : S)
    (r : ResultH) : Bool × S × ResultH × List Ev :=
  fallbackLoop b inst s r (topCandidates (b.anchors s))

/-- Post-gate tail of `process_url` (harvester.py lines 90-103): on
`gate_passed` re-scan the download buttons, then walk the fallback links,
else finish with `not_found`. -/
def processPostGate {S : Type} (b : BrowserH S) (inst : String) (gc : String × S)
    (r2 : ResultH) : ProcRet × List Ev :=
  let af :=
    if gc.1 = "gate_passed" then
      (try_download_buttons b inst gc.2 r2 PDF_LINK_KEYWORDS_PRIORITY, [Ev.dlAttempt])
    else (((false : Bool), gc.2, r2), ([] : List Ev))
  if af.1.1 then (ProcRet.res af.1.2.2, af.2)
  else
    let f := try_fallback_links b inst af.1.2.1 af.1.2.2
    if f.1 then (ProcRet.res f.2.2.1, af.2 ++ f.2.2.2)
    else
      (ProcRet.res { f.2.2.1 with status := "not_found", notes := "No PDF found after scanning." },
        af.2 ++ f.2.2.2 ++ [Ev.screenshot (inst ++ "_not_found")])

/-- Source `process_url` (harvester.py line 38): load, direct-PDF check,
cookies, popups, download-button scan, compliance gate, then the post-gate
tail.  Note the download-button scan (step 5) runs before the
compliance-gate check (step 6). -/
def process_url {S : Type} (b : BrowserH S) (profile inst url : String) (s0 : S) :
    ProcRet × List Ev :=
  let r0 : ResultH := { start_url := url }
  match b.goto s0 url with
  | none =>
    (ProcRet.res { r0 with status := "error", notes := "Failed to load page: " ++ b.failNote },
      [Ev.navigate url, Ev.screenshot (inst ++ "_load_error")])
  | some p =>
    let r1 := { r0 with final_url := b.pageUrl p.1 }
    if is_pdf_response p.2 then (ProcRet.boolEscape false, [Ev.navigate url])
    else
      let s3 := handle_popups b (handle_cookies b p.1)
      let t1 := try_download_buttons b inst s3 r1 PDF_LINK_KEYWORDS_PRIORITY
      if t1.1 then
        (ProcRet.res t1.2.2, [Ev.navigate url, Ev.obstaclesCleared, Ev.dlAttempt])
      else
        let gc := check_compliance_gate b profile t1.2.1
        if gc.1 = "manual_required" then
          (ProcRet.res { t1.2.2 with status := "manual_required", notes := "Compliance gate detected, manual intervention required." },
            [Ev.navigate url, Ev.obstaclesCleared, Ev.dlAttempt, Ev.gateCheck,
             Ev.screenshot (inst ++ "_manual_required")])
        else
          let pg := processPostGate b inst gc t1.2.2
          (pg.1, Ev.navigate url :: Ev.obstaclesCleared :: Ev.dlAttempt ::
            Ev.gateCheck :: pg.2)

end HV

namespace Claimed

/-- Modelled from the claim wording of C4 (not from the source): every
anchor is scored, whether or not it has an href, and exactly the positive
scores are kept, ranked stably descending, top 10. -/
def topCandidates (anchors : List (String × String)) : List (Nat × String) :=
  (HV.sortDesc (anchors.filterMap (fun a =>
    if 0 < HV.anchorScore a.1 a.2 then some (HV.anchorScore a.1 a.2, a.1) else none))).take 10

/-- Modelled from the claim wording of C7 (not from the source): the first
pass keeps hrefs that literally end in `.pdf` (no query stripping). -/
def collectCandidateLinks (hrefs : List String) : List String :=
  let pdfs := hrefs.filter (fun h => ".pdf".data.isSuffixOf h.data)
  if pdfs.isEmpty then (PH.dedupFirst (hrefs.filter PH.kwMatch)).take 10
  else (PH.dedupFirst pdfs).take 10

end Claimed

/-- One cookie-handling plus modal-closing pass of pdf_harvester.py, as a
self-map of page-state/result pairs; used to state idempotence of re-running
the obstacle handlers. -/
def obstaclePass {S : Type} (b : PH.Browser S) :
    S × PH.HarvestResult → S × PH.HarvestResult := fun p =>
  PH.close_modals b (PH.handle_cookies b p.1 p.2).1 (PH.handle_cookies b p.1 p.2).2

/-- Temporal property of an event trace: every download-trigger attempt is
preceded by a gate check and by an obstacle-clearing pass. -/
def gateBeforeDl (tr : List Ev) : Prop :=
  ∀ l1 l2 : List Ev, tr = l1 ++ Ev.dlAttempt :: l2 →
    Ev.gateCheck ∈ l1 ∧ Ev.obstaclesCleared ∈ l1

/-- Inert pdf_harvester browser over `Unit`: no element ever matches, no
download ever fires, no anchors, navigation always succeeds; the visible
body text is the parameter. -/
def inertBrowser (txt : String) : PH.Browser Unit where
  clickButton := fun _ _ => none
  clickLink := fun _ _ => none
  clickSelector := fun _ _ => none
  bodyText := fun _ => txt
  pageUrl := fun _ => "https://example.org/page"
  newPage := fun _ => some ()
  scroll := fun s => s
  sniffed := fun _ => ""
  download := fun _ => none
  hrefs := fun _ => []
  failNote := "err"
  failUrl := none

/-- Browser showing a gate ("qualified investor" in the body text) whose
only clickable element is the profile label `Retail`; in particular every
Continue/Confirm/Agree phrase fails to match. -/
def gateClickBrowser : PH.Browser Unit :=
  { inertBrowser "qualified investor" with
    clickButton := fun s t => if t = "Retail" then some s else none }

/-- Browser on which only the download hint `pdf` matches a clickable
element (as a link) and the click is followed by a captured download. -/
def pdfHintBrowser : PH.Browser Unit :=
  { inertBrowser "plain page" with
    clickLink := fun s t => if t = "pdf" then some s else none
    download := fun s => some s }

/-- Inert harvester.py browser over `Unit`: navigation succeeds with a
`text/html` response, nothing is visible or clickable, no downloads; the
page content is the parameter. -/
def inertBrowserH (content : String) : HV.BrowserH Unit where
  goto := fun s u => some (s, some ("text/html", u))
  pageUrl := fun _ => "https://example.org/page"
  pageContent := fun _ => content
  visClick := fun _ _ => none
  gatePass := fun _ _ => none
  visKw := fun _ _ => false
  dlKw := fun _ _ => none
  anchors := fun _ => []
  navDl := fun _ _ => false
  failNote := "err"

/-- Harvester browser with a gate keyword in the page content and a visible
`download full pdf` element whose click captures a download: the
download-button scan of `process_url` step 5 fires before the gate check of
step 6. -/
def dlGateBrowserH : HV.BrowserH Unit :=
  { inertBrowserH "important jurisdiction information" with
    visKw := fun _ kw => kw = "download full pdf"
    dlKw := fun s kw => if kw = "download full pdf" then some s else none }

/-- Harvester browser on which only the lowest-priority keyword `download`
has a visible element and its click captures a download. -/
def dlOnlyBrowserH : HV.BrowserH Unit :=
  { inertBrowserH "plain page" with
    visKw := fun _ kw => kw = "download"
    dlKw := fun s kw => if kw = "download" then some s else none }

/-- Sample freshly-initialized `HarvestResult`. -/
def sampleResult : PH.HarvestResult :=
  { institution := "Acme Capital", start_url := "https://example.org/outlook" }

/-- Sample freshly-initialized harvester.py result dictionary. -/
def sampleResultH : HV.ResultH := { start_url := "https://example.org/outlook" }

/-! ### Supporting lemmas -/

namespace PH

theorem takeWhile_append_of_neg {p : Char → Bool} {x : Char} (hx : p x = false) :
    ∀ (l1 l2 : List Char), (l1 ++ x :: l2).takeWhile p = l1.takeWhile p := by
  intro l1 l2
  induction l1 with
  | nil => simp [List.takeWhile_cons, hx]
  | cons c cs ih => simp only [List.cons_append, List.takeWhile_cons, ih]

theorem dedupGo_sublist : ∀ (l seen : List String), (dedupGo seen l).Sublist l := by
  intro l
  induction l with
  | nil => intro seen; simp [dedupGo]
  | cons x xs ih =>
    intro seen
    by_cases h : x ∈ seen
    · simp only [dedupGo, if_pos h]
      exact (ih seen).trans (List.sublist_cons_self x xs)
    · simp only [dedupGo, if_neg h]
      exact (ih (x :: seen)).cons₂ x

theorem mem_dedupGo : ∀ (l seen : List String) (x : String),
    x ∈ dedupGo seen l ↔ (x ∈ l ∧ x ∉ seen) := by
  intro l
  induction l with
  | nil => intro seen x; simp [dedupGo]
  | cons y ys ih =>
    intro seen x
    by_cases h : y ∈ seen
    · rw [dedupGo, if_pos h, ih]
      simp only [List.mem_cons]
      constructor
      · rintro ⟨h1, h2⟩
        exact ⟨Or.inr h1, h2⟩
      · rintro ⟨h1 | h1, h2⟩
        · exact absurd (h1 ▸ h) h2
        · exact ⟨h1, h2⟩
    · rw [dedupGo, if_neg h]
      simp only [List.mem_cons, ih]
      constructor
      · rintro (rfl | ⟨h1, h2⟩)
        · exact ⟨Or.inl rfl, h⟩
        · exact ⟨Or.inr h1, fun hc => h2 (Or.inr hc)⟩
      · rintro ⟨h1 | h1, h2⟩
        · exact Or.inl h1
        · by_cases hxy : x = y
          · exact Or.inl hxy
          · refine Or.inr ⟨h1, fun hc => ?_⟩
            rcases hc with h3 | h3
            · exact hxy h3
            · exact h2 h3

theorem nodup_dedupGo : ∀ (l seen : List String), (dedupGo seen l).Nodup := by
  intro l
  induction l with
  | nil => intro seen; simp [dedupGo]
  | cons y ys ih =>
    intro seen
    by_cases h : y ∈ seen
    · simpa [dedupGo, if_pos h] using ih seen
    · simp only [dedupGo, if_neg h]
      refine List.nodup_cons.mpr ⟨fun hc => ?_, ih (y :: seen)⟩
      exact ((mem_dedupGo ys (y :: seen) y).mp hc).2 (List.mem_cons_self y seen)

end PH

namespace HV

theorem head_insertDesc (x : Nat × String) (l : List (Nat × String)) :
    (insertDesc x l).head? = some x ∨ (insertDesc x l).head? = l.head? := by
  cases l with
  | nil => left; rfl
  | cons y ys =>
    by_cases h : y.1 < x.1
    · left; simp [insertDesc, h]
    · right; simp [insertDesc, h]

theorem chain_insertDesc (x : Nat × String) :
    ∀ l : List (Nat × String), List.Chain' (fun a b => b.1 ≤ a.1) l →
      List.Chain' (fun a b => b.1 ≤ a.1) (insertDesc x l) := by
  intro l
  induction l with
  | nil => intro _; simp [insertDesc]
  | cons y ys ih =>
    intro hch
    rw [insertDesc]
    by_cases h : y.1 < x.1
    · rw [if_pos h]
      exact List.Chain'.cons (le_of_lt h) hch
    · rw [if_neg h]
      rcases List.chain'_cons'.mp hch with ⟨hhd, htl⟩
      refine List.chain'_cons'.mpr ⟨?_, ih htl⟩
      intro z hz
      rcases head_insertDesc x ys with hc | hc
      · rw [hc] at hz
        simp only [Option.mem_def, Option.some.injEq] at hz
        subst hz
        exact Nat.le_of_not_lt h
      · rw [hc] at hz
        exact hhd z hz

theorem chain_sortDescAux : ∀ (l acc : List (Nat × String)),
    List.Chain' (fun a b => b.1 ≤ a.1) acc →
    List.Chain' (fun a b => b.1 ≤ a.1) (l.foldl (fun acc x => insertDesc x acc) acc) := by
  intro l
  induction l with
  | nil => intro acc h; exact h
  | cons x t ih => intro acc h; exact ih _ (chain_insertDesc x acc h)

theorem chain_sortDesc (l : List (Nat × String)) :
    List.Chain' (fun a b => b.1 ≤ a.1) (sortDesc l) :=
  chain_sortDescAux l [] (by simp)

theorem insertDesc_perm (x : Nat × String) :
    ∀ l, (insertDesc x l).Perm (x :: l) := by
  intro l
  induction l with
  | nil => simp [insertDesc]
  | cons y ys ih =>
    rw [insertDesc]
    by_cases h : y.1 < x.1
    · rw [if_pos h]
    · rw [if_neg h]
      exact (ih.cons y).trans (List.Perm.swap x y ys)

theorem sortDesc_permAux : ∀ (l acc : List (Nat × String)),
    (l.foldl (fun acc x => insertDesc x acc) acc).Perm (acc ++ l) := by
  intro l
  induction l with
  | nil => intro acc; simp
  | cons x t ih =>
    intro acc
    have h1 := ih (insertDesc x acc)
    have h2 : (insertDesc x acc ++ t).Perm ((x :: acc) ++ t) :=
      (insertDesc_perm x acc).append_right t
    exact (h1.trans h2).trans List.perm_middle.symm

theorem sortDesc_perm (l : List (Nat × String)) : (sortDesc l).Perm l := by
  simpa [sortDesc] using sortDesc_permAux l []

theorem insertDesc_const (n : Nat) (x : Nat × String) (hx : x.1 = n) :
    ∀ l, (∀ y ∈ l, y.1 = n) → insertDesc x l = l ++ [x] := by
  intro l
  induction l with
  | nil => intro _; rfl
  | cons y ys ih =>
    intro hall
    rw [insertDesc]
    have hy : y.1 = n := hall y (List.mem_cons_self y ys)
    have hlt : ¬ y.1 < x.1 := by rw [hy, hx]; exact lt_irrefl n
    rw [if_neg hlt, ih (fun z hz => hall z (List.mem_cons_of_mem y hz))]
    rfl

theorem sortDesc_constAux (n : Nat) : ∀ (l acc : List (Nat × String)),
    (∀ y ∈ l, y.1 = n) → (∀ y ∈ acc, y.1 = n) →
    l.foldl (fun acc x => insertDesc x acc) acc = acc ++ l := by
  intro l
  induction l with
  | nil => intro acc _ _; simp
  | cons x t ih =>
    intro acc hl hacc
    have hx : x.1 = n := hl x (List.mem_cons_self x t)
    rw [List.foldl_cons, insertDesc_const n x hx acc hacc,
      ih (acc ++ [x]) (fun z hz => hl z (List.mem_cons_of_mem x hz))
        (fun z hz => by
          rcases List.mem_append.mp hz with h1 | h1
          · exact hacc z h1
          · rw [List.mem_singleton.mp h1, hx])]
    simp

theorem sortDesc_const (n : Nat) (l : List (Nat × String)) (h : ∀ y ∈ l, y.1 = n) :
    sortDesc l = l := by
  simpa [sortDesc] using sortDesc_constAux n l [] h (by simp)

theorem filterMap_guarded {α β : Type} (p : α → Bool) (g f : α → Option β)
    (hf : ∀ a, f a = if p a then g a else none) :
    ∀ l : List α, l.filterMap f = (l.filter p).filterMap g := by
  intro l
  induction l with
  | nil => rfl
  | cons a t ih =>
    rw [List.filterMap_cons, List.filter_cons, hf a]
    by_cases hp : p a = true
    · rw [if_pos hp, if_pos hp]
      cases hga : g a with
      | none => simp [List.filterMap_cons, hga, ih]
      | some b => simp [List.filterMap_cons, hga, ih]
    · rw [if_neg hp, if_neg hp]
      exact ih

theorem scoreCandidates_filter (anchors : List (String × String)) :
    scoreCandidates anchors =
      (anchors.filter (fun a => !(a.1 = ""))).filterMap (fun a =>
        if 0 < anchorScore a.1 a.2 then some (anchorScore a.1 a.2, a.1) else none) := by
  refine filterMap_guarded _ _ _ (fun a => ?_) anchors
  by_cases h : a.1 = ""
  · simp [h]
  · simp [h]

end HV

namespace PH

theorem mem_collapseUnd : ∀ (l : List Char) (c : Char), c ∈ collapseUnd l → c ∈ l := by
  intro l
  induction l with
  | nil => intro c h; simp [collapseUnd] at h
  | cons a t ih =>
    cases t with
    | nil => intro c h; simpa [collapseUnd] using h
    | cons d rest =>
      intro c h
      rw [collapseUnd] at h
      split at h
      · exact List.mem_cons_of_mem a (ih c h)
      · rcases List.mem_cons.mp h with rfl | h1
        · exact List.mem_cons_self c (d :: rest)
        · exact List.mem_cons_of_mem a (ih c h1)

theorem mem_trimUnd {l : List Char} {c : Char} (h : c ∈ trimUnd l) : c ∈ l := by
  simp only [trimUnd, List.mem_reverse] at h
  have h1 : c ∈ (l.dropWhile fun c => c = '_').reverse :=
    (List.dropWhile_sublist _).subset h
  rw [List.mem_reverse] at h1
  exact (List.dropWhile_sublist _).subset h1

theorem slugify_chars (s : String) : ∀ c ∈ (slugify s).data, isAlnumLower c = true ∨ c = '_' := by
  intro c hc
  have hc1 : c ∈ trimUnd (collapseUnd ((trimWs (s.data.map Char.toLower)).map
      (fun c => if isAlnumLower c then c else '_'))) := hc
  have h2 := mem_collapseUnd _ c (mem_trimUnd hc1)
  rcases List.mem_map.mp h2 with ⟨a, _, rfl⟩
  by_cases h : isAlnumLower a = true
  · left; simp [h]
  · right; simp [h]

theorem takeTwoTokens_append : ∀ (l : List Char) (k : Nat),
    ∃ rest, l = takeTwoTokens k l ++ rest := by
  intro l
  induction l with
  | nil => intro k; exact ⟨[], rfl⟩
  | cons c cs ih =>
    intro k
    rw [takeTwoTokens]
    by_cases h : c = '_'
    · rw [if_pos h]
      by_cases hk : k = 0
      · rw [if_pos hk]
        obtain ⟨r, hr⟩ := ih 1
        exact ⟨r, by rw [List.cons_append, ← hr]⟩
      · rw [if_neg hk]
        exact ⟨c :: cs, rfl⟩
    · rw [if_neg h]
      obtain ⟨r, hr⟩ := ih k
      exact ⟨r, by rw [List.cons_append, ← hr]⟩

theorem count_takeTwoTokens_one : ∀ l : List Char, (takeTwoTokens 1 l).count '_' = 0 := by
  intro l
  induction l with
  | nil => rfl
  | cons c cs ih =>
    rw [takeTwoTokens]
    by_cases h : c = '_'
    · simp [h]
    · simp [h, List.count_cons, ih]

theorem count_takeTwoTokens_zero : ∀ l : List Char, (takeTwoTokens 0 l).count '_' ≤ 1 := by
  intro l
  induction l with
  | nil => simp [takeTwoTokens]
  | cons c cs ih =>
    rw [takeTwoTokens]
    by_cases h : c = '_'
    · simp [h, List.count_cons, count_takeTwoTokens_one]
    · simpa [h, List.count_cons] using ih

end PH

namespace PH

theorem click_by_text_none {S : Type} (b : Browser S) (s : S) :
    ∀ texts : List String,
      (∀ t ∈ texts, b.clickButton s t = none ∧ b.clickLink s t = none) →
      click_by_text b s texts = none := by
  intro texts
  induction texts with
  | nil => intro _; rfl
  | cons t rest ih =>
    intro h
    have ht := h t (List.mem_cons_self t rest)
    rw [click_by_text, ht.1, ht.2]
    exact ih (fun t2 h2 => h t2 (List.mem_cons_of_mem t h2))

theorem closeSelLoop_none {S : Type} (b : Browser S) (s : S) :
    ∀ sels : List String, (∀ sel ∈ sels, b.clickSelector s sel = none) →
      closeSelLoop b s sels = none := by
  intro sels
  induction sels with
  | nil => intro _; rfl
  | cons sel rest ih =>
    intro h
    rw [closeSelLoop, h sel (List.mem_cons_self sel rest)]
    exact ih (fun s2 h2 => h s2 (List.mem_cons_of_mem sel h2))

theorem tryDownloadGo_skip {S : Type} (b : Browser S) (inst : String) (s : S)
    (r : HarvestResult) :
    ∀ (pre l : List String), (∀ h2 ∈ pre, click_by_text b s [h2] = none) →
      tryDownloadGo b inst s r (pre ++ l) = tryDownloadGo b inst s r l := by
  intro pre
  induction pre with
  | nil => intro l _; rfl
  | cons h2 t ih =>
    intro l hall
    rw [List.cons_append, tryDownloadGo, hall h2 (List.mem_cons_self h2 t)]
    exact ih l (fun h3 hm => hall h3 (List.mem_cons_of_mem h2 hm))

theorem tryDownloadGo_none_result {S : Type} (b : Browser S) (inst : String) :
    ∀ (hints : List String) (s : S) (r : HarvestResult),
      (tryDownloadGo b inst s r hints).1 = none →
      (tryDownloadGo b inst s r hints).2.2 = r := by
  intro hints
  induction hints with
  | nil => intro s r _; rfl
  | cons h t ih =>
    intro s r hnone
    cases hc : click_by_text b s [h] with
    | none =>
      simp only [tryDownloadGo, hc] at hnone ⊢
      exact ih s r hnone
    | some s1 =>
      cases hd : b.download s1 with
      | none =>
        simp only [tryDownloadGo, hc, hd] at hnone ⊢
        exact ih s1 r hnone
      | some s2 =>
        simp only [tryDownloadGo, hc, hd] at hnone
        exact absurd hnone (by simp)

end PH

namespace HV

theorem try_download_buttons_false {S : Type} (b : BrowserH S) (inst : String) :
    ∀ (kws : List String) (s : S) (r : ResultH),
      (try_download_buttons b inst s r kws).1 = false ∧
      (try_download_buttons b inst s r kws).2.2 = r := by
  intro kws
  induction kws with
  | nil => intro s r; exact ⟨rfl, rfl⟩
  | cons kw rest ih =>
    intro s r
    rw [try_download_buttons]
    by_cases hv : b.visKw s kw = true
    · rw [if_pos hv]
      cases hd : b.dlKw s kw with
      | none => exact ih s r
      | some s1 => exact ⟨rfl, rfl⟩
    · rw [if_neg hv]
      exact ih s r

theorem cookieLoop_none {S : Type} (b : BrowserH S) (s : S) :
    ∀ texts : List String, (∀ t ∈ texts, b.visClick s (textSel t) = none) →
      cookieLoop b s texts = s := by
  intro texts
  induction texts with
  | nil => intro _; rfl
  | cons t rest ih =>
    intro h
    rw [cookieLoop, h t (List.mem_cons_self t rest)]
    exact ih (fun t2 h2 => h t2 (List.mem_cons_of_mem t h2))

end HV

namespace PH

/-- The download path saved by `try_download_event`. -/
theorem dlPath_ne (inst : String) : "downloads/" ++ safe_filename inst ≠ "" := by
  intro h
  have h2 : ("downloads/" ++ safe_filename inst).length = 0 := by rw [h]; rfl
  rw [String.length_append] at h2
  have h3 : "downloads/".length = 10 := rfl
  omega

theorem handle_cookies_core {S : Type} (b : Browser S) (s : S) (r : HarvestResult) :
    (handle_cookies b s r).2.status = r.status ∧
    (handle_cookies b s r).2.file_path = r.file_path := by
  rw [handle_cookies]
  cases click_by_text b s COOKIE_TEXTS <;> exact ⟨rfl, rfl⟩

theorem close_modals_core {S : Type} (b : Browser S) (s : S) (r : HarvestResult) :
    (close_modals b s r).2.status = r.status ∧
    (close_modals b s r).2.file_path = r.file_path := by
  rw [close_modals]
  cases click_by_text b s CLOSE_TEXTS <;>
    · simp only []
      split <;> exact ⟨rfl, rfl⟩

theorem linkedin_core {S : Type} (b : Browser S) (s : S) (r : HarvestResult) :
    (handle_linkedin_interstitial b s r).2.status = r.status ∧
    (handle_linkedin_interstitial b s r).2.file_path = r.file_path := by
  rw [handle_linkedin_interstitial]
  split
  · split <;> exact ⟨rfl, rfl⟩
  · exact ⟨rfl, rfl⟩

theorem resolve_gate_core {S : Type} (b : Browser S) (profile : String) (s : S)
    (r : HarvestResult) :
    (resolve_gate b profile s r).2.2.status = r.status ∧
    (resolve_gate b profile s r).2.2.file_path = r.file_path := by
  rw [resolve_gate]
  split
  · exact ⟨rfl, rfl⟩
  · split
    · exact ⟨rfl, rfl⟩
    · split
      · exact ⟨rfl, rfl⟩
      · split
        · rename_i s1 heq
          have hhc := handle_cookies_core b s1
            { r with actions := (r.actions ++ ["gate_detected"]) ++ ["gate_selected_" ++ profile] }
          have hcm := close_modals_core b
            (handle_cookies b s1
              { r with actions := (r.actions ++ ["gate_detected"]) ++ ["gate_selected_" ++ profile] }).1
            (handle_cookies b s1
              { r with actions := (r.actions ++ ["gate_detected"]) ++ ["gate_selected_" ++ profile] }).2
          exact ⟨hcm.1.trans hhc.1, hcm.2.trans hhc.2⟩
        · exact ⟨rfl, rfl⟩

theorem tryDownloadGo_core {S : Type} (b : Browser S) (inst : String) :
    ∀ (hints : List String) (s : S) (r : HarvestResult),
      (tryDownloadGo b inst s r hints).2.2.status = r.status ∧
      (tryDownloadGo b inst s r hints).2.2.file_path = r.file_path ∧
      ∀ o, (tryDownloadGo b inst s r hints).1 = some o →
        o = "downloads/" ++ safe_filename inst := by
  intro hints
  induction hints with
  | nil => intro s r; exact ⟨rfl, rfl, fun o h => by simp [tryDownloadGo] at h⟩
  | cons h t ih =>
    intro s r
    cases hc : click_by_text b s [h] with
    | none =>
      simp only [tryDownloadGo, hc]
      exact ih s r
    | some s1 =>
      cases hd : b.download s1 with
      | none =>
        simp only [tryDownloadGo, hc, hd]
        exact ih s1 r
      | some s2 =>
        refine ⟨by simp [tryDownloadGo, hc, hd], by simp [tryDownloadGo, hc, hd],
          fun o ho => ?_⟩
        simp only [tryDownloadGo, hc, hd] at ho
        simpa using ho.symm

theorem try_download_event_core {S : Type} (b : Browser S) (inst : String) (s : S)
    (r : HarvestResult) :
    (try_download_event b inst s r).2.2.status = r.status ∧
    (try_download_event b inst s r).2.2.file_path = r.file_path ∧
    ∀ o, (try_download_event b inst s r).1 = some o →
      o = "downloads/" ++ safe_filename inst :=
  tryDownloadGo_core b inst DOWNLOAD_HINTS s r

theorem sniffFollowup_spec {S : Type} (b : Browser S) (inst purl : String)
    (r : HarvestResult) :
    ((sniffFollowup b inst purl r).2.1.status = r.status ∧
      (sniffFollowup b inst purl r).2.1.file_path = r.file_path) ∧
    ∀ rf, (sniffFollowup b inst purl r).1 = some rf →
      rf.status = "downloaded" ∧
      rf.file_path = some ("downloads/" ++ safe_filename inst) := by
  rw [sniffFollowup]
  cases hn : b.newPage purl with
  | none => exact ⟨⟨rfl, rfl⟩, fun rf h => by simp at h⟩
  | some t0 =>
    have hc := try_download_event_core b inst t0 r
    cases ho : (try_download_event b inst t0 r).1 with
    | none =>
      simp only [ho]
      exact ⟨⟨hc.1, hc.2.1⟩, fun rf h => by simp at h⟩
    | some o =>
      simp only [ho]
      refine ⟨⟨hc.1, hc.2.1⟩, fun rf h => ?_⟩
      have ho2 := hc.2.2 o ho
      simp only [Option.some.injEq] at h
      subst h
      exact ⟨rfl, by simp [ho2]⟩

end PH

namespace PH

theorem candStep_spec {S : Type} (b : Browser S) (profile inst cand : String)
    (r : HarvestResult) :
    (candStep b profile inst cand r).2.1.status = r.status ∧
    (candStep b profile inst cand r).2.1.file_path = r.file_path ∧
    ∀ rf, (candStep b profile inst cand r).1 = some rf →
      rf.status = "downloaded" ∧
      rf.file_path = some ("downloads/" ++ safe_filename inst) := by
  cases hn : b.newPage cand with
  | none => simp [candStep, hn]
  | some t0 =>
    have hch := handle_cookies_core b t0 r
    have hcm := close_modals_core b (handle_cookies b t0 r).1 (handle_cookies b t0 r).2
    have hrg := resolve_gate_core b profile
      (close_modals b (handle_cookies b t0 r).1 (handle_cookies b t0 r).2).1
      (close_modals b (handle_cookies b t0 r).1 (handle_cookies b t0 r).2).2
    have hgs := hrg.1.trans (hcm.1.trans hch.1)
    have hgf := hrg.2.trans (hcm.2.trans hch.2)
    simp only [candStep, hn]
    set grg := resolve_gate b profile
      (close_modals b (handle_cookies b t0 r).1 (handle_cookies b t0 r).2).1
      (close_modals b (handle_cookies b t0 r).1 (handle_cookies b t0 r).2).2 with hgrg
    split
    · -- gate handled: first download attempt on the candidate page
      split
      · -- download succeeded
        rename_i o heq
        have ht := try_download_event_core b inst grg.2.1 grg.2.2
        refine ⟨ht.1.trans hgs, ht.2.1.trans hgf, fun rf h => ?_⟩
        rw [Option.some.injEq] at h
        subst h
        exact ⟨rfl, by rw [ht.2.2 o heq]⟩
      · -- no download; sniffed follow-up
        rename_i heq
        have ht := try_download_event_core b inst grg.2.1 grg.2.2
        split
        · exact ⟨ht.1.trans hgs, ht.2.1.trans hgf, fun rf h => by simp at h⟩
        · split
          · exact ⟨ht.1.trans hgs, ht.2.1.trans hgf, fun rf h => by simp at h⟩
          · rename_i u0 hnp
            have ht3 := try_download_event_core b inst u0
              (try_download_event b inst grg.2.1 grg.2.2).2.2
            split
            · rename_i o3 heq3
              refine ⟨ht3.1.trans (ht.1.trans hgs), ht3.2.1.trans (ht.2.1.trans hgf),
                fun rf h => ?_⟩
              rw [Option.some.injEq] at h
              subst h
              exact ⟨rfl, by rw [ht3.2.2 o3 heq3]⟩
            · exact ⟨ht3.1.trans (ht.1.trans hgs), ht3.2.1.trans (ht.2.1.trans hgf),
                fun rf h => by simp at h⟩
    · exact ⟨hgs, hgf, fun rf h => by simp at h⟩

theorem candLoop_spec {S : Type} (b : Browser S) (profile inst : String) :
    ∀ (cands : List String) (r : HarvestResult),
      (candLoop b profile inst cands r).2.1.status = r.status ∧
      (candLoop b profile inst cands r).2.1.file_path = r.file_path ∧
      ∀ rf, (candLoop b profile inst cands r).1 = some rf →
        rf.status = "downloaded" ∧
        rf.file_path = some ("downloads/" ++ safe_filename inst) := by
  intro cands
  induction cands with
  | nil => intro r; exact ⟨rfl, rfl, fun rf h => by simp [candLoop] at h⟩
  | cons cand rest ih =>
    intro r
    have hst := candStep_spec b profile inst cand r
    cases hc : (candStep b profile inst cand r).1 with
    | some rf0 =>
      simp only [candLoop, hc]
      exact ⟨hst.1, hst.2.1, fun rf h => by
        rw [Option.some.injEq] at h
        exact h ▸ hst.2.2 rf0 hc⟩
    | none =>
      simp only [candLoop, hc]
      have hih := ih (candStep b profile inst cand r).2.1
      exact ⟨hih.1.trans hst.1, hih.2.1.trans hst.2.1, hih.2.2⟩

theorem mainFirst_spec {S : Type} (b : Browser S) (inst : String) (s5 : S)
    (r5 : HarvestResult) :
    (mainFirst b inst s5 r5).1.2.2.status = r5.status ∧
    (mainFirst b inst s5 r5).1.2.2.file_path = r5.file_path ∧
    ∀ o, (mainFirst b inst s5 r5).1.1 = some o →
      o = "downloads/" ++ safe_filename inst := by
  rw [mainFirst]
  split
  · exact try_download_event_core b inst s5 r5
  · exact ⟨rfl, rfl, fun o h => by simp at h⟩

theorem harvestMain_spec {S : Type} (b : Browser S) (profile inst : String) (s5 : S)
    (r5 : HarvestResult) :
    ((harvestMain b profile inst s5 r5).1.status = "downloaded" ∧
      (harvestMain b profile inst s5 r5).1.file_path =
        some ("downloads/" ++ safe_filename inst)) ∨
    ((harvestMain b profile inst s5 r5).1.status = "not_found" ∧
      (harvestMain b profile inst s5 r5).1.file_path = r5.file_path) := by
  have hmf := mainFirst_spec b inst s5 r5
  simp only [harvestMain]
  split
  · -- first attempt succeeded
    rename_i o heq
    left
    exact ⟨rfl, by rw [hmf.2.2 o heq]⟩
  · rename_i heq1
    have ht2 := try_download_event_core b inst (mainFirst b inst s5 r5).1.2.1
      (mainFirst b inst s5 r5).1.2.2
    split
    · rename_i o heq
      left
      exact ⟨rfl, by rw [ht2.2.2 o heq]⟩
    · rename_i heq2
      -- sniffed follow-up stage
      have hsfbase : ∀ (sf : Option HarvestResult × HarvestResult × List Ev),
          True := fun _ => trivial
      split
      · -- sniff follow-up returned a downloaded result
        rename_i rf heq3
        left
        by_cases hsn : b.sniffed (try_download_event b inst
            (mainFirst b inst s5 r5).1.2.1 (mainFirst b inst s5 r5).1.2.2).2.1 = ""
        · rw [if_pos hsn] at heq3
          simp at heq3
        · rw [if_neg hsn] at heq3
          exact (sniffFollowup_spec b inst _ _).2 rf heq3
      · rename_i heq3
        -- candidate crawl stage
        set sf := (if b.sniffed (try_download_event b inst
            (mainFirst b inst s5 r5).1.2.1 (mainFirst b inst s5 r5).1.2.2).2.1 = "" then
              ((none : Option HarvestResult),
                (try_download_event b inst (mainFirst b inst s5 r5).1.2.1
                  (mainFirst b inst s5 r5).1.2.2).2.2, ([] : List Ev))
            else sniffFollowup b inst
              (b.sniffed (try_download_event b inst (mainFirst b inst s5 r5).1.2.1
                (mainFirst b inst s5 r5).1.2.2).2.1)
              (try_download_event b inst (mainFirst b inst s5 r5).1.2.1
                (mainFirst b inst s5 r5).1.2.2).2.2) with hsfdef
        have hsf : sf.2.1.status = r5.status ∧ sf.2.1.file_path = r5.file_path := by
          rw [hsfdef]
          split
          · exact ⟨ht2.1.trans hmf.1, ht2.2.1.trans hmf.2.1⟩
          · have hs := sniffFollowup_spec b inst
              (b.sniffed (try_download_event b inst (mainFirst b inst s5 r5).1.2.1
                (mainFirst b inst s5 r5).1.2.2).2.1)
              (try_download_event b inst (mainFirst b inst s5 r5).1.2.1
                (mainFirst b inst s5 r5).1.2.2).2.2
            exact ⟨hs.1.1.trans (ht2.1.trans hmf.1), hs.1.2.trans (ht2.2.1.trans hmf.2.1)⟩
        have hcl := candLoop_spec b profile inst
          (collect_candidate_links (b.hrefs (try_download_event b inst
            (mainFirst b inst s5 r5).1.2.1 (mainFirst b inst s5 r5).1.2.2).2.1)) sf.2.1
        split
        · rename_i rf heq4
          left
          exact hcl.2.2 rf heq4
        · right
          exact ⟨rfl, hcl.2.1.trans hsf.2⟩

end PH

theorem notMem_split {α : Type} {x : α} :
    ∀ (a rest l1 l2 : List α), x ∉ a → a ++ rest = l1 ++ x :: l2 →
      ∃ m, l1 = a ++ m := by
  intro a
  induction a with
  | nil => intro rest l1 l2 _ _; exact ⟨l1, rfl⟩
  | cons y a2 ih =>
    intro rest l1 l2 hx heq
    cases l1 with
    | nil =>
      rw [List.nil_append, List.cons_append, List.cons.injEq] at heq
      exact absurd (heq.1 ▸ List.mem_cons_self y a2) hx
    | cons z l12 =>
      rw [List.cons_append, List.cons_append, List.cons.injEq] at heq
      obtain ⟨m, hm⟩ := ih rest l12 l2 (fun hc => hx (List.mem_cons_of_mem y hc)) heq.2
      exact ⟨m, by rw [hm, List.cons_append, heq.1]⟩

namespace PH

theorem harvestPrep_core {S : Type} (b : Browser S) (profile : String) (s0 : S)
    (r0 : HarvestResult) :
    (harvestPrep b profile s0 r0).2.2.status = r0.status ∧
    (harvestPrep b profile s0 r0).2.2.file_path = r0.file_path := by
  have h1 := linkedin_core b s0 r0
  have h2 := handle_cookies_core b (b.scroll (handle_linkedin_interstitial b s0 r0).1)
    (handle_linkedin_interstitial b s0 r0).2
  have h3 := close_modals_core b
    (handle_cookies b (b.scroll (handle_linkedin_interstitial b s0 r0).1)
      (handle_linkedin_interstitial b s0 r0).2).1
    (handle_cookies b (b.scroll (handle_linkedin_interstitial b s0 r0).1)
      (handle_linkedin_interstitial b s0 r0).2).2
  have h4 := resolve_gate_core b profile
    (close_modals b
      (handle_cookies b (b.scroll (handle_linkedin_interstitial b s0 r0).1)
        (handle_linkedin_interstitial b s0 r0).2).1
      (handle_cookies b (b.scroll (handle_linkedin_interstitial b s0 r0).1)
        (handle_linkedin_interstitial b s0 r0).2).2).1
    (close_modals b
      (handle_cookies b (b.scroll (handle_linkedin_interstitial b s0 r0).1)
        (handle_linkedin_interstitial b s0 r0).2).1
      (handle_cookies b (b.scroll (handle_linkedin_interstitial b s0 r0).1)
        (handle_linkedin_interstitial b s0 r0).2).2).2
  exact ⟨h4.1.trans (h3.1.trans (h2.1.trans h1.1)),
    h4.2.trans (h3.2.trans (h2.2.trans h1.2))⟩

end PH

namespace HV

theorem fallbackLoop_false {S : Type} (b : BrowserH S) (inst : String) :
    ∀ (cands : List (Nat × String)) (s : S) (r : ResultH),
      (fallbackLoop b inst s r cands).1 = false ∧
      (fallbackLoop b inst s r cands).2.2.1 = r := by
  intro cands
  induction cands with
  | nil => intro s r; exact ⟨rfl, rfl⟩
  | cons c rest ih =>
    intro s r
    rw [fallbackLoop]
    split
    · exact ⟨rfl, rfl⟩
    · cases hg : b.goto s c.2 with
      | none => exact ⟨(ih s r).1, (ih s r).2⟩
      | some p =>
        have ht := try_download_buttons_false b inst PDF_LINK_KEYWORDS_PRIORITY p.1 r
        simp only [ht.1, Bool.false_eq_true, if_false]
        have hk := ih (try_download_buttons b inst p.1 r PDF_LINK_KEYWORDS_PRIORITY).2.1
          (try_download_buttons b inst p.1 r PDF_LINK_KEYWORDS_PRIORITY).2.2
        exact ⟨hk.1, hk.2.trans ht.2⟩

theorem try_fallback_links_false {S : Type} (b : BrowserH S) (inst : String) (s : S)
    (r : ResultH) :
    (try_fallback_links b inst s r).1 = false ∧
    (try_fallback_links b inst s r).2.2.1 = r := by
  rw [try_fallback_links]
  exact fallbackLoop_false b inst _ s r

theorem processPostGate_res {S : Type} (b : BrowserH S) (inst : String)
    (gc : String × S) (r2 : ResultH) :
    (processPostGate b inst gc r2).1 =
      ProcRet.res { r2 with status := "not_found", notes := "No PDF found after scanning." } := by
  rw [processPostGate]
  by_cases hgp : gc.1 = "gate_passed"
  · simp only [if_pos hgp]
    have h1 := try_download_buttons_false b inst PDF_LINK_KEYWORDS_PRIORITY gc.2 r2
    have htf := try_fallback_links_false b inst
      (try_download_buttons b inst gc.2 r2 PDF_LINK_KEYWORDS_PRIORITY).2.1
      (try_download_buttons b inst gc.2 r2 PDF_LINK_KEYWORDS_PRIORITY).2.2
    simp only [h1.1, Bool.false_eq_true, if_false, htf.1]
    rw [htf.2, h1.2]
  · simp only [if_neg hgp]
    have htf := try_fallback_links_false b inst gc.2 r2
    simp only [htf.1, Bool.false_eq_true, if_false]
    rw [htf.2]

theorem process_url_enum {S : Type} (b : BrowserH S) (profile inst url : String) (s0 : S) :
    (process_url b profile inst url s0).1 = ProcRet.boolEscape false ∨
    ∃ r : ResultH, (process_url b profile inst url s0).1 = ProcRet.res r ∧
      r.file_path = "" ∧
      (r.status = "error" ∨
        (r.status = "manual_required" ∧
          ∃ pre, (process_url b profile inst url s0).2 =
            pre ++ [Ev.gateCheck, Ev.screenshot (inst ++ "_manual_required")]) ∨
        r.status = "not_found") := by
  cases hgo : b.goto s0 url with
  | none =>
    right
    refine ⟨{ start_url := url, status := "error", notes := "Failed to load page: " ++ b.failNote }, ?_, rfl, Or.inl rfl⟩
    simp only [process_url, hgo]
  | some p =>
    by_cases hpdf : is_pdf_response p.2 = true
    · left
      simp [process_url, hgo, hpdf]
    · have ht1 := try_download_buttons_false b inst PDF_LINK_KEYWORDS_PRIORITY (handle_popups b (handle_cookies b p.1)) { start_url := url, final_url := b.pageUrl p.1 }
      by_cases hman : (check_compliance_gate b profile (try_download_buttons b inst (handle_popups b (handle_cookies b p.1)) { start_url := url, final_url := b.pageUrl p.1 } PDF_LINK_KEYWORDS_PRIORITY).2.1).1 = "manual_required"
      · right
        refine ⟨{ (try_download_buttons b inst (handle_popups b (handle_cookies b p.1)) { start_url := url, final_url := b.pageUrl p.1 } PDF_LINK_KEYWORDS_PRIORITY).2.2 with status := "manual_required", notes := "Compliance gate detected, manual intervention required." }, ?_, ?_, Or.inr (Or.inl ⟨rfl, ?_⟩)⟩
        · simp [process_url, hgo, hpdf, ht1.1, hman]
        · rw [ht1.2]
        · simp only [process_url, hgo, hpdf]
          simp [ht1.1, hman]
          exact ⟨[Ev.navigate url, Ev.obstaclesCleared, Ev.dlAttempt], rfl⟩
      · right
        have hpg := processPostGate_res b inst (check_compliance_gate b profile (try_download_buttons b inst (handle_popups b (handle_cookies b p.1)) { start_url := url, final_url := b.pageUrl p.1 } PDF_LINK_KEYWORDS_PRIORITY).2.1) (try_download_buttons b inst (handle_popups b (handle_cookies b p.1)) { start_url := url, final_url := b.pageUrl p.1 } PDF_LINK_KEYWORDS_PRIORITY).2.2
        refine ⟨{ (try_download_buttons b inst (handle_popups b (handle_cookies b p.1)) { start_url := url, final_url := b.pageUrl p.1 } PDF_LINK_KEYWORDS_PRIORITY).2.2 with status := "not_found", notes := "No PDF found after scanning." }, ?_, ?_, Or.inr (Or.inr rfl)⟩
        · simp only [process_url, hgo]
          simp only [hpdf, Bool.false_eq_true, if_false, ite_false]
          simp [ht1.1, hman]
          exact hpg
        · rw [ht1.2]

end HV

/-! ### Claim theorems -/

/-- Claim C4 (amended): in the scored candidate-link variant, anchors with a
missing or empty href are skipped regardless of their link text; every other
anchor is scored +10 for a `.pdf` suffix, +5 for substring `pdf` in the
href, +3 for a download-hint keyword in the link text (case-insensitive);
exactly the positive scores are kept, ranked descending by score with ties
in original document order (the sort is stable, witnessed here by the
constant-score law and the permutation law), and at most the top 10 are
retained. -/
theorem claim_C4 :
    (∀ anchors : List (String × String),
      HV.topCandidates anchors =
        Claimed.topCandidates (anchors.filter (fun a => !(a.1 = ""))) ∧
      List.Chain' (fun a b : Nat × String => b.1 ≤ a.1) (HV.topCandidates anchors) ∧
      (HV.topCandidates anchors).length ≤ 10 ∧
      (HV.sortDesc (HV.scoreCandidates anchors)).Perm (HV.scoreCandidates anchors)) ∧
    (∀ (l : List (Nat × String)) (n : Nat), (∀ y ∈ l, y.1 = n) → HV.sortDesc l = l) := by
  constructor
  · intro anchors
    refine ⟨?_, (HV.chain_sortDesc _).take 10, List.length_take_le 10 _, HV.sortDesc_perm _⟩
    simp only [HV.topCandidates, Claimed.topCandidates]
    rw [HV.scoreCandidates_filter]
  · intro l n h
    exact HV.sortDesc_const n l h

/-- Claim C4 witness: the tie-order law at a concrete constant-score list,
and the code/claim agreement at a concrete anchor list containing an
empty-href anchor. -/
theorem claim_C4_witness :
    HV.sortDesc [(5, "a"), (5, "b")] = [(5, "a"), (5, "b")] ∧
    HV.topCandidates [("x.pdf", ""), ("", "download")] =
      Claimed.topCandidates
        ([("x.pdf", ""), ("", "download")].filter (fun a => !(a.1 = ""))) := by
  exact ⟨claim_C4.2 [(5, "a"), (5, "b")] 5 (by decide),
    (claim_C4.1 [("x.pdf", ""), ("", "download")]).1⟩

/-- Claim C4 counterexample: an anchor with an empty href whose text
contains the download-hint keyword `download` has claim-score 3 > 0, yet
`_try_fallback_links` skips it (`if not href: continue`), so the claim that
all positively scored anchors are kept fails on the code. -/
theorem claim_C4_counterexample :
    HV.topCandidates [("", "download now")] = [] ∧
    Claimed.topCandidates [("", "download now")] = [(3, "")] ∧
    HV.topCandidates [("", "download now")] ≠ Claimed.topCandidates [("", "download now")] := by
  exact ⟨by decide, by decide, by decide⟩

/-- Claim C6 (amended): `safe_filename` sanitizes the institution to a
filesystem-safe slug (only `[a-z0-9_]` characters), truncates it to the
first two underscore-separated tokens (an initial segment of the slug with
at most one internal underscore), and appends the fixed suffix `_2026.pdf`;
no current date is appended there.  The `utils.sanitize_filename` variant
appends the fixed suffix plus the current date (`_2026_Outlook_<date>.pdf`)
but performs no truncation. -/
theorem claim_C6 (inst date : String) :
    (PH.safe_filename inst).data =
      PH.takeTwoTokens 0 (PH.slugify inst).data ++ "_2026.pdf".data ∧
    (∀ c ∈ (PH.slugify inst).data, PH.isAlnumLower c = true ∨ c = '_') ∧
    (∃ rest, (PH.slugify inst).data =
      PH.takeTwoTokens 0 (PH.slugify inst).data ++ rest) ∧
    (PH.takeTwoTokens 0 (PH.slugify inst).data).count '_' ≤ 1 ∧
    (∃ pre, (HV.sanitize_filename inst date).data =
      pre ++ ("_2026_Outlook_" ++ date ++ ".pdf").data) := by
  refine ⟨?_, PH.slugify_chars inst, PH.takeTwoTokens_append _ 0,
    PH.count_takeTwoTokens_zero _, ?_⟩
  · simp [PH.safe_filename, String.data_append]
  · refine ⟨(inst.data.filter
      (fun c => !(c = '\\' || c = '/' || c = '*' || c = '?' || c = ':' ||
        c = '"' || c = '<' || c = '>' || c = '|'))).map
      (fun c => if c = ' ' then '_' else c), ?_⟩
    simp [HV.sanitize_filename, String.data_append, List.append_assoc]

/-- Claim C6 counterexample: on 2026-10-12 (date string `20261012`) the
filename actually derived for a file downloaded for institution
`State Street Global Advisors` is `state_street_2026.pdf`: it does not
contain the current date (the only digits come from the fixed `_2026`
suffix), refuting the claim that the derivation appends the current date.
The third conjunct shows the other variant keeps the date but does not
truncate (all four name tokens survive). -/
theorem claim_C6_counterexample :
    PH.safe_filename "State Street Global Advisors" = "state_street_2026.pdf" ∧
    PH.strContains (PH.safe_filename "State Street Global Advisors") "20261012" = false ∧
    HV.sanitize_filename "State Street Global Advisors" "20261012" =
      "State_Street_Global_Advisors_2026_Outlook_20261012.pdf" := by
  exact ⟨by decide, by decide, by decide⟩

/-- Claim C7 (amended): `collect_candidate_links`, given the page's anchor
hrefs, returns at most 10 pairwise-distinct hrefs in original order (a
sublist of the input); if any href passes the `is_pdf_url` check (query
string stripped, case-insensitive `.pdf` suffix) the result is exactly the
first-seen deduplication of those hrefs capped at 10 (and is non-empty),
otherwise it is the first-seen deduplication, capped at 10, of the hrefs
whose lowercased URL contains a fallback keyword. -/
theorem claim_C7 (hrefs : List String) :
    (PH.collect_candidate_links hrefs).length ≤ 10 ∧
    (PH.collect_candidate_links hrefs).Nodup ∧
    (PH.collect_candidate_links hrefs).Sublist hrefs ∧
    (hrefs.filter PH.is_pdf_url ≠ [] →
      PH.collect_candidate_links hrefs =
        (PH.dedupFirst (hrefs.filter PH.is_pdf_url)).take 10 ∧
      PH.collect_candidate_links hrefs ≠ [] ∧
      ∀ x ∈ PH.collect_candidate_links hrefs, PH.is_pdf_url x = true) ∧
    (hrefs.filter PH.is_pdf_url = [] →
      PH.collect_candidate_links hrefs =
        (PH.dedupFirst (hrefs.filter PH.kwMatch)).take 10 ∧
      ∀ x ∈ PH.collect_candidate_links hrefs, PH.kwMatch x = true) := by
  by_cases hp : hrefs.filter PH.is_pdf_url = []
  · have hres : PH.collect_candidate_links hrefs =
        (PH.dedupFirst (hrefs.filter PH.kwMatch)).take 10 := by
      simp [PH.collect_candidate_links, List.isEmpty_iff, hp]
    refine ⟨?_, ?_, ?_, fun hne => absurd hp hne, fun _ => ⟨hres, ?_⟩⟩
    · rw [hres]; exact List.length_take_le 10 _
    · rw [hres]
      exact (List.take_sublist _ _).nodup (PH.nodup_dedupGo _ [])
    · rw [hres]
      exact ((List.take_sublist _ _).trans (PH.dedupGo_sublist _ [])).trans
        (List.filter_sublist hrefs)
    · intro x hx
      rw [hres] at hx
      have hx1 := (List.take_sublist _ _).subset hx
      have hx2 := (PH.mem_dedupGo _ [] x).mp hx1
      exact (List.mem_filter.mp hx2.1).2
  · have hres : PH.collect_candidate_links hrefs =
        (PH.dedupFirst (hrefs.filter PH.is_pdf_url)).take 10 := by
      simp [PH.collect_candidate_links, List.isEmpty_iff, hp]
    refine ⟨?_, ?_, ?_, fun _ => ⟨hres, ?_, ?_⟩, fun h => absurd h hp⟩
    · rw [hres]; exact List.length_take_le 10 _
    · rw [hres]
      exact (List.take_sublist _ _).nodup (PH.nodup_dedupGo _ [])
    · rw [hres]
      exact ((List.take_sublist _ _).trans (PH.dedupGo_sublist _ [])).trans
        (List.filter_sublist hrefs)
    · rw [hres]
      obtain ⟨x, hx⟩ := List.exists_mem_of_ne_nil _ hp
      have hxd : x ∈ PH.dedupFirst (hrefs.filter PH.is_pdf_url) :=
        (PH.mem_dedupGo _ [] x).mpr ⟨hx, by simp⟩
      intro htake
      rcases List.take_eq_nil_iff.mp htake with h10 | hnil
      · exact absurd h10 (by decide)
      · exact absurd hnil (List.ne_nil_of_mem hxd)
    · intro x hx
      rw [hres] at hx
      have hx1 := (List.take_sublist _ _).subset hx
      have hx2 := (PH.mem_dedupGo _ [] x).mp hx1
      exact (List.mem_filter.mp hx2.1).2

/-- Claim C7 witness: both branches at concrete href lists. -/
theorem claim_C7_witness :
    PH.collect_candidate_links ["https://x/r1.pdf"] =
      (PH.dedupFirst (["https://x/r1.pdf"].filter PH.is_pdf_url)).take 10 ∧
    PH.collect_candidate_links ["https://x/r1.pdf"] ≠ [] ∧
    PH.collect_candidate_links ["https://y/news.html"] =
      (PH.dedupFirst (["https://y/news.html"].filter PH.kwMatch)).take 10 := by
  refine ⟨?_, ?_, ?_⟩
  · exact ((claim_C7 ["https://x/r1.pdf"]).2.2.2.1 (by decide)).1
  · exact ((claim_C7 ["https://x/r1.pdf"]).2.2.2.1 (by decide)).2.1
  · exact ((claim_C7 ["https://y/news.html"]).2.2.2.2 (by decide)).1

/-- Claim C7 counterexample: the href `https://x/a.pdf?v=1` does not
literally end in `.pdf`, so under the claim wording the first pass is empty
and the keyword pass would also keep `https://x/b-report.html`; the code,
which strips the query string first (`is_pdf_url`), keeps only the PDF
href.  The claim as stated therefore disagrees with the code on this
input. -/
theorem claim_C7_counterexample :
    PH.collect_candidate_links ["https://x/a.pdf?v=1", "https://x/b-report.html"] =
      ["https://x/a.pdf?v=1"] ∧
    Claimed.collectCandidateLinks ["https://x/a.pdf?v=1", "https://x/b-report.html"] =
      ["https://x/a.pdf?v=1", "https://x/b-report.html"] ∧
    PH.collect_candidate_links ["https://x/a.pdf?v=1", "https://x/b-report.html"] ≠
      Claimed.collectCandidateLinks ["https://x/a.pdf?v=1", "https://x/b-report.html"] := by
  exact ⟨by decide, by decide, by decide⟩

/-- Claim C8 (amended): the query-stripping, case-insensitive `.pdf` check
of the current page address is `is_pdf_url`, and it answers identically on
`base?query` and on `base` for all strings; the response check
`_is_pdf_response` of the harvester.py variant instead combines a
content-type test with an unstripped lowercased URL-suffix test. -/
theorem claim_C8 :
    (∀ base query : String, PH.is_pdf_url (base ++ "?" ++ query) = PH.is_pdf_url base) ∧
    HV.is_pdf_response none = false ∧
    (∀ ct u : String, HV.is_pdf_response (some (ct, u)) =
      (PH.strContains (PH.lowerStr ct) "application/pdf" || HV.endsWithPdf u)) := by
  refine ⟨?_, rfl, fun ct u => rfl⟩
  intro base query
  have hd : (base ++ "?" ++ query).data = base.data ++ '?' :: query.data := by
    simp [String.data_append]
  simp only [PH.is_pdf_url]
  rw [hd, PH.takeWhile_append_of_neg (by decide)]

/-- Claim C8 counterexample: for the cited `_is_pdf_response` URL test the
claim fails: with a non-PDF content type, `https://x/a.pdf?dl=1` is not
accepted while its query-stripped base `https://x/a.pdf` is, so that check
does not strip the query string; `is_pdf_url` does treat the URL as a
PDF. -/
theorem claim_C8_counterexample :
    HV.is_pdf_response (some ("text/html", "https://x/a.pdf?dl=1")) = false ∧
    HV.is_pdf_response (some ("text/html", "https://x/a.pdf")) = true ∧
    PH.is_pdf_url "https://x/a.pdf?dl=1" = true := by
  exact ⟨by decide, by decide, by decide⟩

/-- Claim C2: on a page whose (gate-relevant) text contains a
compliance-gate keyword, a configured profile of `unknown` makes the gate
resolver return the manual-intervention outcome with the page state
untouched; moreover the outcome does not consult any click oracle (the
result is identical for any two browsers agreeing on the page text), i.e.
no click is attempted.  Both variants are covered: `resolve_gate` (which
also appends the `gate_detected` action tag) and
`_check_compliance_gate`. -/
theorem claim_C2 :
    (∀ (S : Type) (b : PH.Browser S) (s : S) (r : PH.HarvestResult),
      PH.detect_gate b s = true →
      PH.resolve_gate b "unknown" s r =
        ((false, "Gate detected; profile=unknown => manual required."), s,
          { r with actions := r.actions ++ ["gate_detected"] })) ∧
    (∀ (S : Type) (b1 b2 : PH.Browser S) (s : S) (r : PH.HarvestResult),
      b1.bodyText = b2.bodyText →
      PH.resolve_gate b1 "unknown" s r = PH.resolve_gate b2 "unknown" s r) ∧
    (∀ (S : Type) (b : HV.BrowserH S) (s : S),
      HV.COMPLIANCE_GATE_KEYWORDS.any
        (fun k => PH.strContains (PH.lowerStr (b.pageContent s)) k) = true →
      HV.check_compliance_gate b "unknown" s = ("manual_required", s)) ∧
    (∀ (S : Type) (b1 b2 : HV.BrowserH S) (s : S),
      b1.pageContent = b2.pageContent →
      HV.check_compliance_gate b1 "unknown" s = HV.check_compliance_gate b2 "unknown" s) := by
  refine ⟨?_, ?_, ?_, ?_⟩
  · intro S b s r h
    simp [PH.resolve_gate, h]
  · intro S b1 b2 s r h
    simp [PH.resolve_gate, PH.detect_gate, PH.contains_any, h]
  · intro S b s h
    simp [HV.check_compliance_gate, h]
  · intro S b1 b2 s h
    simp [HV.check_compliance_gate, h]

/-- Claim C2 witness: a gated page (`i certify` in the body text, resp.
`jurisdiction` in the content) with profile `unknown` at concrete inert
browsers. -/
theorem claim_C2_witness :
    PH.resolve_gate (inertBrowser "you must certify: i certify") "unknown" () sampleResult =
      ((false, "Gate detected; profile=unknown => manual required."), (),
        { sampleResult with actions := sampleResult.actions ++ ["gate_detected"] }) ∧
    HV.check_compliance_gate (inertBrowserH "select your jurisdiction") "unknown" () =
      ("manual_required", ()) := by
  exact ⟨claim_C2.1 Unit (inertBrowser "you must certify: i certify") () sampleResult
      (by decide),
    claim_C2.2.2.1 Unit (inertBrowserH "select your jurisdiction") () (by decide)⟩

/-- Claim C5: settles the download-trigger claim.  Part 1 exhibits the
harvester.py bug: `_try_download_buttons` always returns `False` with the
result unchanged — even when a download is captured — because
`_save_download` references the never-imported `os` module, raises
`NameError`, swallows it and returns `False`; so a successful lower-priority
phrase never yields a saved file path in that variant.  Parts 2 and 3 show
the pdf_harvester.py variant behaves as the claim states: phrases are tried
in priority order, a lower-priority phrase succeeding after earlier ones
failed yields the saved path (and its action tag), and an absent return
leaves the result untouched, i.e. happens only without a captured
download. -/
theorem claim_C5 :
    (∀ (S : Type) (b : HV.BrowserH S) (inst : String) (s : S) (r : HV.ResultH)
      (kws : List String),
      (HV.try_download_buttons b inst s r kws).1 = false ∧
      (HV.try_download_buttons b inst s r kws).2.2 = r) ∧
    (∀ (S : Type) (b : PH.Browser S) (inst : String) (s : S) (r : PH.HarvestResult)
      (pre rest : List String) (h : String) (s1 s2 : S),
      PH.DOWNLOAD_HINTS = pre ++ h :: rest →
      (∀ h2 ∈ pre, PH.click_by_text b s [h2] = none) →
      PH.click_by_text b s [h] = some s1 →
      b.download s1 = some s2 →
      PH.try_download_event b inst s r =
        (some ("downloads/" ++ PH.safe_filename inst), s2,
          { r with actions := r.actions ++ ["downloaded_via_click:" ++ h] })) ∧
    (∀ (S : Type) (b : PH.Browser S) (inst : String) (s : S) (r : PH.HarvestResult)
      (hints : List String),
      (PH.tryDownloadGo b inst s r hints).1 = none →
      (PH.tryDownloadGo b inst s r hints).2.2 = r) := by
  refine ⟨?_, ?_, ?_⟩
  · intro S b inst s r kws
    exact HV.try_download_buttons_false b inst kws s r
  · intro S b inst s r pre rest h s1 s2 hsplit hpre hclick hdl
    rw [PH.try_download_event, hsplit, PH.tryDownloadGo_skip b inst s r pre _ hpre]
    simp only [PH.tryDownloadGo, hclick, hdl]
  · intro S b inst s r hints
    exact PH.tryDownloadGo_none_result b inst hints s r

/-- Claim C5 witness: on a page where only the phrase `pdf` matches (after
`download full pdf`, `download pdf` and `download` all fail) the
pdf_harvester trigger still succeeds and returns the saved path; and the
harvester.py scan at a page with a captured download for keyword
`download` still returns `False`. -/
theorem claim_C5_witness :
    PH.try_download_event pdfHintBrowser "Acme Capital" () sampleResult =
      (some ("downloads/" ++ PH.safe_filename "Acme Capital"), (),
        { sampleResult with
          actions := sampleResult.actions ++ ["downloaded_via_click:pdf"] }) ∧
    (HV.try_download_buttons dlOnlyBrowserH "Acme Capital" () sampleResultH
      HV.PDF_LINK_KEYWORDS_PRIORITY).1 = false := by
  refine ⟨?_, (claim_C5.1 Unit dlOnlyBrowserH "Acme Capital" () sampleResultH
    HV.PDF_LINK_KEYWORDS_PRIORITY).1⟩
  exact claim_C5.2.1 Unit pdfHintBrowser "Acme Capital" () sampleResult
    ["download full pdf", "download pdf", "download"]
    ["full report", "report pdf", "outlook", "view pdf", "download report"]
    "pdf" () () (by decide) (by decide) (by decide) (by decide)

/-- Claim C9: on a page where no cookie phrase, close phrase or close
selector matches anything, the pdf_harvester obstacle handlers return
"no click" and leave both the page state and the result (hence the action
list) unchanged, and any number of re-runs of a cookie+modal pass is still
the identity; the harvester.py cookie handler likewise leaves the page
unchanged.  Totality of the embedded handlers reflects that the source
swallows every interaction exception inside these handlers. -/
theorem claim_C9 :
    (∀ (S : Type) (b : PH.Browser S) (s : S) (r : PH.HarvestResult),
      (∀ t ∈ PH.COOKIE_TEXTS, b.clickButton s t = none ∧ b.clickLink s t = none) →
      (∀ t ∈ PH.CLOSE_TEXTS, b.clickButton s t = none ∧ b.clickLink s t = none) →
      (∀ sel ∈ PH.closeSelectors, b.clickSelector s sel = none) →
      PH.click_by_text b s PH.COOKIE_TEXTS = none ∧
      PH.handle_cookies b s r = (s, r) ∧
      PH.close_modals b s r = (s, r) ∧
      ∀ n : Nat, (obstaclePass b)^[n] (s, r) = (s, r)) ∧
    (∀ (S : Type) (b : HV.BrowserH S) (s : S),
      (∀ t ∈ HV.COOKIE_BUTTON_TEXTS, b.visClick s (HV.textSel t) = none) →
      HV.handle_cookies b s = s) := by
  constructor
  · intro S b s r hck hcl hsel
    have h1 : PH.click_by_text b s PH.COOKIE_TEXTS = none :=
      PH.click_by_text_none b s _ hck
    have h2 : PH.handle_cookies b s r = (s, r) := by
      rw [PH.handle_cookies, h1]
    have h3 : PH.close_modals b s r = (s, r) := by
      rw [PH.close_modals, PH.click_by_text_none b s _ hcl]
      simp only [PH.closeSelLoop_none b s _ hsel]
    have h4 : obstaclePass b (s, r) = (s, r) := by
      rw [obstaclePass, h2]
      exact h3
    exact ⟨h1, h2, h3, fun n => Function.iterate_fixed h4 n⟩
  · intro S b s h
    exact HV.cookieLoop_none b s _ h

/-- Claim C9 witness: the no-op behaviour at a concrete inert browser,
iterated 5 times. -/
theorem claim_C9_witness :
    PH.click_by_text (inertBrowser "welcome") () PH.COOKIE_TEXTS = none ∧
    PH.handle_cookies (inertBrowser "welcome") () sampleResult = ((), sampleResult) ∧
    PH.close_modals (inertBrowser "welcome") () sampleResult = ((), sampleResult) ∧
    (obstaclePass (inertBrowser "welcome"))^[5] ((), sampleResult) = ((), sampleResult) ∧
    HV.handle_cookies (inertBrowserH "welcome") () = () := by
  have h := claim_C9.1 Unit (inertBrowser "welcome") () sampleResult
    (fun t _ => ⟨rfl, rfl⟩) (fun t _ => ⟨rfl, rfl⟩) (fun sel _ => rfl)
  exact ⟨h.1, h.2.1, h.2.2.1, h.2.2.2 5,
    claim_C9.2 Unit (inertBrowserH "welcome") () (fun t _ => rfl)⟩

/-- Claim C10: whenever the gate resolver detects a gate, the configured
profile has a mapping, and the profile-option click succeeds, `resolve_gate`
reports handled and appends `gate_continued` — for every browser, in
particular those where the subsequent Continue/Confirm/Agree click matches
nothing (the click result on line 233 is discarded), so the presence of
`gate_continued` does not imply a continue button was clicked. -/
theorem claim_C10 :
    ∀ (S : Type) (b : PH.Browser S) (s : S) (r : PH.HarvestResult) (profile : String)
      (s1 : S),
      PH.detect_gate b s = true →
      profile ≠ "unknown" →
      PH.PROFILE_MAP profile ≠ [] →
      PH.click_by_text b s (PH.PROFILE_MAP profile) = some s1 →
      (PH.resolve_gate b profile s r).1.1 = true ∧
      "gate_continued" ∈ (PH.resolve_gate b profile s r).2.2.actions ∧
      (PH.resolve_gate b profile s r).1.2 =
        "Gate handled using profile=" ++ profile ++ "." := by
  intro S b s r profile s1 hdet hunk hmap hclick
  simp only [PH.resolve_gate, hdet, Bool.not_true, Bool.false_eq_true, if_false,
    if_neg hunk, if_neg hmap, hclick]
  simp

/-- Claim C10 witness: a browser whose only clickable element is the
`Retail` profile label; every continuation phrase fails to match
(`click_by_text` on the continue texts is `none`), yet the gate is reported
handled and `gate_continued` is appended. -/
theorem claim_C10_witness :
    PH.click_by_text gateClickBrowser () PH.continueTexts = none ∧
    (PH.resolve_gate gateClickBrowser "retail" () sampleResult).1.1 = true ∧
    "gate_continued" ∈ (PH.resolve_gate gateClickBrowser "retail" () sampleResult).2.2.actions := by
  have h := claim_C10 Unit gateClickBrowser () sampleResult "retail" ()
    (by decide) (by decide) (by decide) (by decide)
  exact ⟨by decide, h.1, h.2.1⟩

/-- Claim C3: every `HarvestResult` finalized by `harvest_one` carries
exactly one status among downloaded / manual_required / not_found / error,
and its `file_path` is a non-empty path exactly when the status is
`downloaded`; likewise every result dictionary returned by `process_url`
(the direct-PDF branch returns a bare boolean and finalizes no result). -/
theorem claim_C3 :
    (∀ (S : Type) (b : PH.Browser S) (profile inst url : String),
      (PH.harvest_one b profile inst url).1.status ∈
        (["downloaded", "manual_required", "not_found", "error"] : List String) ∧
      ((∃ p, (PH.harvest_one b profile inst url).1.file_path = some p ∧ p ≠ "") ↔
        (PH.harvest_one b profile inst url).1.status = "downloaded")) ∧
    (∀ (S : Type) (b : HV.BrowserH S) (profile inst url : String) (s0 : S)
      (r : HV.ResultH),
      (HV.process_url b profile inst url s0).1 = HV.ProcRet.res r →
      r.status ∈ (["downloaded", "manual_required", "not_found", "error"] : List String) ∧
      (¬ r.file_path = "" ↔ r.status = "downloaded")) := by
  constructor
  · intro S b profile inst url
    cases hn : b.newPage url with
    | none =>
      cases hf : b.failUrl with
      | none =>
        have hst : (PH.harvest_one b profile inst url).1.status = "error" := by
          simp [PH.harvest_one, hn, hf]
        have hfp : (PH.harvest_one b profile inst url).1.file_path = none := by
          simp [PH.harvest_one, hn, hf]
        rw [hst, hfp]
        simp
      | some u =>
        have hst : (PH.harvest_one b profile inst url).1.status = "error" := by
          simp [PH.harvest_one, hn, hf]
        have hfp : (PH.harvest_one b profile inst url).1.file_path = none := by
          simp [PH.harvest_one, hn, hf]
        rw [hst, hfp]
        simp
    | some s0 =>
      have hprep := PH.harvestPrep_core b profile s0 { institution := inst, start_url := url }
      by_cases hg : (PH.harvestPrep b profile s0 { institution := inst, start_url := url }).1.1 = true
      · have hm := PH.harvestMain_spec b profile inst
          (PH.harvestPrep b profile s0 { institution := inst, start_url := url }).2.1
          { (PH.harvestPrep b profile s0 { institution := inst, start_url := url }).2.2 with final_url := some (b.pageUrl (PH.harvestPrep b profile s0 { institution := inst, start_url := url }).2.1) }
        rcases hm with ⟨h1, h2⟩ | ⟨h1, h2⟩
        · have hst : (PH.harvest_one b profile inst url).1.status = "downloaded" := by
            simp only [PH.harvest_one, hn]
            rw [if_pos hg]
            exact h1
          have hfp : (PH.harvest_one b profile inst url).1.file_path =
              some ("downloads/" ++ PH.safe_filename inst) := by
            simp only [PH.harvest_one, hn]
            rw [if_pos hg]
            exact h2
          rw [hst, hfp]
          refine ⟨by simp, fun _ => rfl, fun _ => ⟨_, rfl, PH.dlPath_ne inst⟩⟩
        · have hst : (PH.harvest_one b profile inst url).1.status = "not_found" := by
            simp only [PH.harvest_one, hn]
            rw [if_pos hg]
            exact h1
          have hfp : (PH.harvest_one b profile inst url).1.file_path = none := by
            simp only [PH.harvest_one, hn]
            rw [if_pos hg]
            exact h2.trans hprep.2
          rw [hst, hfp]
          simp
      · have hst : (PH.harvest_one b profile inst url).1.status = "manual_required" := by
          simp only [PH.harvest_one, hn]
          rw [if_neg hg]
        have hfp : (PH.harvest_one b profile inst url).1.file_path = none := by
          simp only [PH.harvest_one, hn]
          rw [if_neg hg]
          exact hprep.2
        rw [hst, hfp]
        simp
  · intro S b profile inst url s0 r hres
    rcases HV.process_url_enum b profile inst url s0 with h | ⟨r2, h2, hfp, hcase⟩
    · rw [hres] at h
      exact absurd h (by simp)
    · rw [hres] at h2
      obtain rfl : r = r2 := by injection h2
      constructor
      · rcases hcase with hc | ⟨hc, _⟩ | hc <;> rw [hc] <;> simp
      · rw [hfp]
        constructor
        · intro hne
          exact absurd rfl hne
        · intro hst
          rcases hcase with hc | ⟨hc, _⟩ | hc <;>
            exact absurd (hc.symm.trans hst) (by decide)

/-- Claim C3 witness: `process_url` at a concrete quiet page finalizes a
`not_found` result satisfying the invariant. -/
theorem claim_C3_witness :
    ({ start_url := "https://example.org/outlook", final_url := "https://example.org/page", status := "not_found", notes := "No PDF found after scanning.", file_path := "" } : HV.ResultH).status ∈
      (["downloaded", "manual_required", "not_found", "error"] : List String) ∧
    (¬ ({ start_url := "https://example.org/outlook", final_url := "https://example.org/page", status := "not_found", notes := "No PDF found after scanning.", file_path := "" } : HV.ResultH).file_path = "" ↔
      ({ start_url := "https://example.org/outlook", final_url := "https://example.org/page", status := "not_found", notes := "No PDF found after scanning.", file_path := "" } : HV.ResultH).status = "downloaded") :=
  claim_C3.2 Unit (inertBrowserH "welcome") "unknown" "Acme Capital"
    "https://example.org/outlook" ()
    { start_url := "https://example.org/outlook", final_url := "https://example.org/page", status := "not_found", notes := "No PDF found after scanning.", file_path := "" }
    (by decide)

/-- Claim C1 (amended): in `harvest_one` every download-trigger attempt is
preceded by an obstacle-clearing pass and a gate check, and a
manual-required gate terminates the task with status `manual_required`, a
screenshot, and no download attempt at all.  In `process_url` the
download-button scan of step 5 precedes the gate check (see the
counterexample), but a manual-required gate still terminates the task with
status `manual_required` and a screenshot immediately after the gate check,
so no download attempt follows the gate check. -/
theorem claim_C1 :
    (∀ (S : Type) (b : PH.Browser S) (profile inst url : String),
      gateBeforeDl (PH.harvest_one b profile inst url).2 ∧
      ((PH.harvest_one b profile inst url).1.status = "manual_required" →
        Ev.screenshot (PH.slugify inst ++ "_manual_required") ∈
          (PH.harvest_one b profile inst url).2 ∧
        Ev.dlAttempt ∉ (PH.harvest_one b profile inst url).2)) ∧
    (∀ (S : Type) (b : HV.BrowserH S) (profile inst url : String) (s0 : S)
      (r : HV.ResultH),
      (HV.process_url b profile inst url s0).1 = HV.ProcRet.res r →
      r.status = "manual_required" →
      ∃ pre, (HV.process_url b profile inst url s0).2 =
        pre ++ [Ev.gateCheck, Ev.screenshot (inst ++ "_manual_required")]) := by
  constructor
  · intro S b profile inst url
    cases hn : b.newPage url with
    | none =>
      have hst : (PH.harvest_one b profile inst url).1.status = "error" := by
        cases hf : b.failUrl <;> simp [PH.harvest_one, hn, hf]
      have hnodl : Ev.dlAttempt ∉ (PH.harvest_one b profile inst url).2 := by
        cases hf : b.failUrl <;> simp [PH.harvest_one, hn, hf]
      constructor
      · intro l1 l2 heq
        have hdl : Ev.dlAttempt ∈ l1 ++ Ev.dlAttempt :: l2 :=
          List.mem_append_right l1 (List.mem_cons_self _ _)
        rw [← heq] at hdl
        exact absurd hdl hnodl
      · intro h
        rw [hst] at h
        exact absurd h (by decide)
    | some s0 =>
      by_cases hg : (PH.harvestPrep b profile s0 { institution := inst, start_url := url }).1.1 = true
      · have htr : (PH.harvest_one b profile inst url).2 =
            [Ev.navigate url, Ev.obstaclesCleared, Ev.gateCheck] ++
              (PH.harvestMain b profile inst
                (PH.harvestPrep b profile s0 { institution := inst, start_url := url }).2.1
                { (PH.harvestPrep b profile s0 { institution := inst, start_url := url }).2.2 with final_url := some (b.pageUrl (PH.harvestPrep b profile s0 { institution := inst, start_url := url }).2.1) }).2 := by
          simp only [PH.harvest_one, hn]
          rw [if_pos hg]
          rfl
        constructor
        · intro l1 l2 heq
          rw [htr] at heq
          obtain ⟨m, hm⟩ := notMem_split _ _ l1 l2 (by simp) heq
          rw [hm]
          simp
        · intro h
          have hm := PH.harvestMain_spec b profile inst
            (PH.harvestPrep b profile s0 { institution := inst, start_url := url }).2.1
            { (PH.harvestPrep b profile s0 { institution := inst, start_url := url }).2.2 with final_url := some (b.pageUrl (PH.harvestPrep b profile s0 { institution := inst, start_url := url }).2.1) }
          have hst : (PH.harvestMain b profile inst
              (PH.harvestPrep b profile s0 { institution := inst, start_url := url }).2.1
              { (PH.harvestPrep b profile s0 { institution := inst, start_url := url }).2.2 with final_url := some (b.pageUrl (PH.harvestPrep b profile s0 { institution := inst, start_url := url }).2.1) }).1.status = "manual_required" := by
            simp only [PH.harvest_one, hn] at h
            rw [if_pos hg] at h
            exact h
          rcases hm with ⟨h1, _⟩ | ⟨h1, _⟩ <;>
            exact absurd (h1.symm.trans hst) (by decide)
      · have htr : (PH.harvest_one b profile inst url).2 =
            [Ev.navigate url, Ev.obstaclesCleared, Ev.gateCheck,
             Ev.screenshot (PH.slugify inst ++ "_manual_required")] := by
          simp only [PH.harvest_one, hn]
          rw [if_neg hg]
        constructor
        · intro l1 l2 heq
          rw [htr] at heq
          have hdl : Ev.dlAttempt ∈ l1 ++ Ev.dlAttempt :: l2 :=
            List.mem_append_right l1 (List.mem_cons_self _ _)
          rw [← heq] at hdl
          simp at hdl
        · intro _
          rw [htr]
          simp
  · intro S b profile inst url s0 r hres hstat
    rcases HV.process_url_enum b profile inst url s0 with h | ⟨r2, h2, _, hcase⟩
    · rw [hres] at h
      exact absurd h (by simp)
    · rw [hres] at h2
      obtain rfl : r = r2 := by injection h2
      rcases hcase with hc | ⟨_, hpre⟩ | hc
      · exact absurd (hc.symm.trans hstat) (by decide)
      · exact hpre
      · exact absurd (hc.symm.trans hstat) (by decide)

/-- Claim C1 counterexample: in `process_url` with a gate keyword on the
page and a visible `download full pdf` element, the download-button scan of
step 5 runs (and even captures a download) before the gate check of step 6:
the task trace has its `dlAttempt` strictly before its `gateCheck`,
refuting "the Gate Resolver runs ... before any Download Trigger attempt"
for this variant. -/
theorem claim_C1_counterexample :
    (HV.process_url dlGateBrowserH "unknown" "Acme Capital"
      "https://example.org/outlook" ()).2 =
      [Ev.navigate "https://example.org/outlook", Ev.obstaclesCleared, Ev.dlAttempt,
       Ev.gateCheck, Ev.screenshot "Acme Capital_manual_required"] ∧
    ¬ gateBeforeDl (HV.process_url dlGateBrowserH "unknown" "Acme Capital"
      "https://example.org/outlook" ()).2 := by
  have htr : (HV.process_url dlGateBrowserH "unknown" "Acme Capital"
      "https://example.org/outlook" ()).2 =
      [Ev.navigate "https://example.org/outlook", Ev.obstaclesCleared, Ev.dlAttempt,
       Ev.gateCheck, Ev.screenshot "Acme Capital_manual_required"] := by decide
  refine ⟨htr, fun hcl => ?_⟩
  have hsplit := hcl [Ev.navigate "https://example.org/outlook", Ev.obstaclesCleared]
    [Ev.gateCheck, Ev.screenshot "Acme Capital_manual_required"] (by rw [htr]; rfl)
  simp at hsplit

/-- Claim C1 witness: a gated quiet page with profile `unknown` gives a
manual-required `harvest_one` task with a screenshot and no download
attempt, and a manual-required `process_url` task whose trace ends with the
gate check and screenshot. -/
theorem claim_C1_witness :
    Ev.screenshot (PH.slugify "Acme Capital" ++ "_manual_required") ∈
      (PH.harvest_one (inertBrowser "i certify") "unknown" "Acme Capital"
        "https://example.org/outlook").2 ∧
    Ev.dlAttempt ∉
      (PH.harvest_one (inertBrowser "i certify") "unknown" "Acme Capital"
        "https://example.org/outlook").2 ∧
    ∃ pre, (HV.process_url (inertBrowserH "select your client type") "unknown"
        "Acme Capital" "https://example.org/outlook" ()).2 =
      pre ++ [Ev.gateCheck, Ev.screenshot ("Acme Capital" ++ "_manual_required")] := by
  have h1 := (claim_C1.1 Unit (inertBrowser "i certify") "unknown" "Acme Capital"
    "https://example.org/outlook").2 (by decide)
  have h2 := claim_C1.2 Unit (inertBrowserH "select your client type") "unknown"
    "Acme Capital" "https://example.org/outlook" ()
    { start_url := "https://example.org/outlook", final_url := "https://example.org/page", status := "manual_required", notes := "Compliance gate detected, manual intervention required.", file_path := "" }
    (by decide) (by decide)
  exact ⟨h1.1, h1.2, h2⟩
